import Mathlib

/-!
Verification development for the gex-options-platform repository.

The Python sources are shallowly embedded:
* prices, Greeks and other floats become `ℚ`;
* Python `int` becomes `Int` (or `Nat` where the source value is a count);
* timezone-aware UTC datetimes become the number of microseconds since the
  Unix epoch (`Nat`); Python `datetime` field accessors (`minute`, `second`,
  `microsecond`) and `replace` become arithmetic on that number;
* Python dicts keyed by floats/tuples become association lists;
* fallible operations become `Option`/`Except`.
-/

/- ------------------------------------------------------------------ -/
/- Datetime model: microseconds since the Unix epoch (UTC).           -/
/- ------------------------------------------------------------------ -/

/-- Python `dt.minute` for a UTC datetime represented as microseconds
since the epoch. -/
def dtMinute (t : Nat) : Nat := t / 60000000 % 60

/-- Python `dt.second`. -/
def dtSecond (t : Nat) : Nat := t / 1000000 % 60

/-- Python `dt.microsecond`. -/
def dtMicrosecond (t : Nat) : Nat := t % 1000000

/-- Python `dt.replace(minute=m, second=0, microsecond=0)`: keep the date and
hour, set the minute to `m` and zero the second and microsecond. -/
def dtReplaceMinute (t m : Nat) : Nat :=
  t - 60000000 * dtMinute t - 1000000 * dtSecond t - dtMicrosecond t + 60000000 * m

/-- Embeds `OptionFlowAggregator._get_bucket_timestamp` (flow_aggregator.py:260):
round a datetime down to the nearest 5-minute bucket via
`dt.replace(minute=(dt.minute // 5) * 5, second=0, microsecond=0)`. -/
def getBucketTimestamp (t : Nat) : Nat :=
  dtReplaceMinute t (dtMinute t / 5 * 5)

lemma getBucketTimestamp_eq (t : Nat) :
    getBucketTimestamp t = t / 300000000 * 300000000 := by
  unfold getBucketTimestamp dtReplaceMinute dtMinute dtSecond dtMicrosecond
  omega

lemma getBucketTimestamp_le (t : Nat) : getBucketTimestamp t ≤ t := by
  rw [getBucketTimestamp_eq]; exact Nat.div_mul_le_self t 300000000

lemma lt_getBucketTimestamp_add (t : Nat) :
    t < getBucketTimestamp t + 300000000 := by
  rw [getBucketTimestamp_eq]; omega

lemma getBucketTimestamp_minute_aligned (t : Nat) :
    dtMinute (getBucketTimestamp t) % 5 = 0 := by
  rw [getBucketTimestamp_eq]
  unfold dtMinute
  omega

lemma getBucketTimestamp_second_zero (t : Nat) :
    dtSecond (getBucketTimestamp t) = 0 := by
  rw [getBucketTimestamp_eq]
  unfold dtSecond
  omega

lemma getBucketTimestamp_micro_zero (t : Nat) :
    dtMicrosecond (getBucketTimestamp t) = 0 := by
  rw [getBucketTimestamp_eq]
  unfold dtMicrosecond
  omega

/- ------------------------------------------------------------------ -/
/- Parsed option quote (the dict built by the ingestion engine's      -/
/- `_parse_option_update`, streaming_ingestion_engine.py:209).        -/
/- ------------------------------------------------------------------ -/

structure ParsedOption where
  timestamp : Nat
  symbol : String
  underlying : String
  underlying_price : ℚ
  strike : ℚ
  expiration : Int
  dte : Int
  option_type : String
  bid : ℚ
  ask : ℚ
  mid : ℚ
  last : ℚ
  volume : Int
  open_interest : Int
  implied_vol : ℚ
  source : String
  spread_pct : Option ℚ
  delta : ℚ
  gamma : ℚ
  theta : ℚ
  vega : ℚ
  rho : ℚ
  is_calculated : Bool
deriving Repr, DecidableEq

/- ------------------------------------------------------------------ -/
/- FlowBucket (flow_aggregator.py:24).  Python's `set` of strikes is  -/
/- an insertion-ordered duplicate-free list; `oi_samples` is a list.  -/
/- ------------------------------------------------------------------ -/

structure FlowBucket where
  symbol : String
  option_type : String
  bucket_start : Nat
  bucket_end : Nat
  total_volume : Int := 0
  sweep_volume : Int := 0
  block_volume : Int := 0
  trade_count : Int := 0
  premium_sum : ℚ := 0
  premium_volume_sum : ℚ := 0
  notional_sum : ℚ := 0
  underlying_price_sum : ℚ := 0
  price_count : Int := 0
  delta_weighted_sum : ℚ := 0
  gamma_weighted_sum : ℚ := 0
  buy_volume : Int := 0
  sell_volume : Int := 0
  atm_volume : Int := 0
  otm_volume : Int := 0
  itm_volume : Int := 0
  max_trade_size : Int := 0
  unique_strikes : List ℚ := []
  oi_samples : List Int := []
deriving Repr, DecidableEq

namespace FlowBucket

/-- Volume metrics of `add_quote` (flow_aggregator.py:74): trade count,
total volume, and block volume for trades of at least 100 contracts. -/
def stepVolume (b : FlowBucket) (volume : Int) : FlowBucket :=
  { b with trade_count := b.trade_count + 1,
           total_volume := b.total_volume + volume,
           block_volume := if volume ≥ 100 then b.block_volume + volume
                           else b.block_volume }

/-- Premium accumulation (flow_aggregator.py:84): `premium = mid*volume*100`. -/
def stepPremium (b : FlowBucket) (q : ParsedOption) : FlowBucket :=
  if q.mid > 0 then
    { b with premium_sum := b.premium_sum + q.mid * q.volume * 100,
             premium_volume_sum :=
               b.premium_volume_sum + q.mid * q.volume * 100 * q.volume }
  else b

/-- Notional accumulation (flow_aggregator.py:91). -/
def stepNotional (b : FlowBucket) (q : ParsedOption) : FlowBucket :=
  if q.underlying_price > 0 then
    { b with notional_sum := b.notional_sum + q.volume * q.underlying_price * 100,
             underlying_price_sum := b.underlying_price_sum + q.underlying_price,
             price_count := b.price_count + 1 }
  else b

/-- Delta-weighted flow (flow_aggregator.py:99). -/
def stepDelta (b : FlowBucket) (q : ParsedOption) : FlowBucket :=
  if q.delta ≠ 0 then
    { b with delta_weighted_sum :=
        b.delta_weighted_sum + q.volume * |q.delta| * q.underlying_price * 100 }
  else b

/-- Gamma-weighted flow (flow_aggregator.py:106). -/
def stepGamma (b : FlowBucket) (q : ParsedOption) : FlowBucket :=
  if q.gamma > 0 then
    { b with gamma_weighted_sum := b.gamma_weighted_sum + q.volume * q.gamma }
  else b

/-- Buy/sell inference from bid/ask positioning of `last`
(flow_aggregator.py:111).  Mid-spread trades split the volume into integer
halves using Python floor division (the volume is positive here). -/
def stepBuySell (b : FlowBucket) (q : ParsedOption) : FlowBucket :=
  if q.bid > 0 ∧ q.ask > 0 ∧ q.last > 0 then
    let spread := q.ask - q.bid
    if spread > 0 then
      let pct_through_spread := (q.last - q.bid) / spread
      if pct_through_spread > 0.6 then
        { b with buy_volume := b.buy_volume + q.volume,
                 sweep_volume := if pct_through_spread > 0.9 then
                                   b.sweep_volume + q.volume
                                 else b.sweep_volume }
      else if pct_through_spread < 0.4 then
        { b with sell_volume := b.sell_volume + q.volume,
                 sweep_volume := if pct_through_spread < 0.1 then
                                   b.sweep_volume + q.volume
                                 else b.sweep_volume }
      else
        { b with buy_volume := b.buy_volume + q.volume / 2,
                 sell_volume := b.sell_volume + (q.volume - q.volume / 2) }
    else b
  else b

/-- Strike distribution (flow_aggregator.py:139): ATM within 2% of spot,
otherwise ITM/OTM by call/put moneyness. -/
def stepStrike (b : FlowBucket) (q : ParsedOption) : FlowBucket :=
  if q.strike > 0 ∧ q.underlying_price > 0 then
    let b := { b with unique_strikes :=
                 if q.strike ∈ b.unique_strikes then b.unique_strikes
                 else b.unique_strikes ++ [q.strike] }
    let pct_diff := |q.strike - q.underlying_price| / q.underlying_price
    let is_call := b.option_type = "call"
    let is_itm := if is_call then q.strike < q.underlying_price
                  else q.strike > q.underlying_price
    if pct_diff ≤ 0.02 then { b with atm_volume := b.atm_volume + q.volume }
    else if is_itm then { b with itm_volume := b.itm_volume + q.volume }
    else { b with otm_volume := b.otm_volume + q.volume }
  else b

/-- Size tracking (flow_aggregator.py:156). -/
def stepSize (b : FlowBucket) (q : ParsedOption) : FlowBucket :=
  if q.volume > b.max_trade_size then { b with max_trade_size := q.volume }
  else b

/-- OI sampling (flow_aggregator.py:160). -/
def stepOI (b : FlowBucket) (q : ParsedOption) : FlowBucket :=
  if q.open_interest > 0 then
    { b with oi_samples := b.oi_samples ++ [q.open_interest] }
  else b

/-- Embeds `FlowBucket.add_quote` (flow_aggregator.py:67): early return on
non-positive volume, then the sequential field updates of the source. -/
def addQuote (b : FlowBucket) (q : ParsedOption) : FlowBucket :=
  if q.volume ≤ 0 then b
  else
    ((((((((b.stepVolume q.volume).stepPremium q).stepNotional q).stepDelta
        q).stepGamma q).stepBuySell q).stepStrike q).stepSize q).stepOI q

end FlowBucket

/-- A fresh `FlowBucket` as created by `OptionFlowAggregator.add_quote`
(flow_aggregator.py:295): identification fields set, all accumulators at
their dataclass defaults. -/
def FlowBucket.init (symbol option_type : String) (bucket_start bucket_end : Nat) :
    FlowBucket :=
  { symbol := symbol, option_type := option_type,
    bucket_start := bucket_start, bucket_end := bucket_end }

/- ------------------------------------------------------------------ -/
/- OptionFlowAggregator bucket map (flow_aggregator.py:231).          -/
/- ------------------------------------------------------------------ -/

/-- Bucket key `(symbol, option_type, bucket_timestamp)`. -/
abbrev AggKey := String × String × Nat

/-- The aggregator's bucket dict as an association list. -/
def aggLookup (buckets : List (AggKey × FlowBucket)) (k : AggKey) :
    Option FlowBucket :=
  (buckets.find? (fun p => decide (p.1 = k))).map Prod.snd

/-- The bucket key computed by `OptionFlowAggregator.add_quote`
(flow_aggregator.py:283). -/
def aggBucketKey (q : ParsedOption) : AggKey :=
  (q.underlying, q.option_type, getBucketTimestamp q.timestamp)

/-- Embeds `OptionFlowAggregator.add_quote` (flow_aggregator.py:274): create the
bucket for the quote's 5-minute window if absent (with
`bucket_end = bucket_start + 5 min`), then add the quote to it. -/
def aggAddQuote (buckets : List (AggKey × FlowBucket)) (q : ParsedOption) :
    List (AggKey × FlowBucket) :=
  let bucket_ts := getBucketTimestamp q.timestamp
  let bucket_key : AggKey := (q.underlying, q.option_type, bucket_ts)
  let buckets :=
    if (aggLookup buckets bucket_key).isSome then buckets
    else buckets ++ [(bucket_key,
      FlowBucket.init q.underlying q.option_type bucket_ts
        (bucket_ts + 300000000))]
  buckets.map (fun p => if p.1 = bucket_key then (p.1, p.2.addQuote q) else p)

/- ------------------------------------------------------------------ -/
/- FlowBucket volume-counter invariant (claims about add_quote).      -/
/- ------------------------------------------------------------------ -/

namespace FlowBucket

lemma stepPremium_counters (b : FlowBucket) (q : ParsedOption) :
    (b.stepPremium q).total_volume = b.total_volume ∧
    (b.stepPremium q).buy_volume = b.buy_volume ∧
    (b.stepPremium q).sell_volume = b.sell_volume ∧
    (b.stepPremium q).atm_volume = b.atm_volume ∧
    (b.stepPremium q).itm_volume = b.itm_volume ∧
    (b.stepPremium q).otm_volume = b.otm_volume := by
  unfold stepPremium; split <;> exact ⟨rfl, rfl, rfl, rfl, rfl, rfl⟩

lemma stepNotional_counters (b : FlowBucket) (q : ParsedOption) :
    (b.stepNotional q).total_volume = b.total_volume ∧
    (b.stepNotional q).buy_volume = b.buy_volume ∧
    (b.stepNotional q).sell_volume = b.sell_volume ∧
    (b.stepNotional q).atm_volume = b.atm_volume ∧
    (b.stepNotional q).itm_volume = b.itm_volume ∧
    (b.stepNotional q).otm_volume = b.otm_volume := by
  unfold stepNotional; split <;> exact ⟨rfl, rfl, rfl, rfl, rfl, rfl⟩

lemma stepDelta_counters (b : FlowBucket) (q : ParsedOption) :
    (b.stepDelta q).total_volume = b.total_volume ∧
    (b.stepDelta q).buy_volume = b.buy_volume ∧
    (b.stepDelta q).sell_volume = b.sell_volume ∧
    (b.stepDelta q).atm_volume = b.atm_volume ∧
    (b.stepDelta q).itm_volume = b.itm_volume ∧
    (b.stepDelta q).otm_volume = b.otm_volume := by
  unfold stepDelta; split <;> exact ⟨rfl, rfl, rfl, rfl, rfl, rfl⟩

lemma stepGamma_counters (b : FlowBucket) (q : ParsedOption) :
    (b.stepGamma q).total_volume = b.total_volume ∧
    (b.stepGamma q).buy_volume = b.buy_volume ∧
    (b.stepGamma q).sell_volume = b.sell_volume ∧
    (b.stepGamma q).atm_volume = b.atm_volume ∧
    (b.stepGamma q).itm_volume = b.itm_volume ∧
    (b.stepGamma q).otm_volume = b.otm_volume := by
  unfold stepGamma; split <;> exact ⟨rfl, rfl, rfl, rfl, rfl, rfl⟩

lemma stepSize_counters (b : FlowBucket) (q : ParsedOption) :
    (b.stepSize q).total_volume = b.total_volume ∧
    (b.stepSize q).buy_volume = b.buy_volume ∧
    (b.stepSize q).sell_volume = b.sell_volume ∧
    (b.stepSize q).atm_volume = b.atm_volume ∧
    (b.stepSize q).itm_volume = b.itm_volume ∧
    (b.stepSize q).otm_volume = b.otm_volume := by
  unfold stepSize; split <;> exact ⟨rfl, rfl, rfl, rfl, rfl, rfl⟩

lemma stepOI_counters (b : FlowBucket) (q : ParsedOption) :
    (b.stepOI q).total_volume = b.total_volume ∧
    (b.stepOI q).buy_volume = b.buy_volume ∧
    (b.stepOI q).sell_volume = b.sell_volume ∧
    (b.stepOI q).atm_volume = b.atm_volume ∧
    (b.stepOI q).itm_volume = b.itm_volume ∧
    (b.stepOI q).otm_volume = b.otm_volume := by
  unfold stepOI; split <;> exact ⟨rfl, rfl, rfl, rfl, rfl, rfl⟩

lemma stepVolume_counters (b : FlowBucket) (v : Int) :
    (b.stepVolume v).total_volume = b.total_volume + v ∧
    (b.stepVolume v).buy_volume = b.buy_volume ∧
    (b.stepVolume v).sell_volume = b.sell_volume ∧
    (b.stepVolume v).atm_volume = b.atm_volume ∧
    (b.stepVolume v).itm_volume = b.itm_volume ∧
    (b.stepVolume v).otm_volume = b.otm_volume :=
  ⟨rfl, rfl, rfl, rfl, rfl, rfl⟩

/-- Lemma: `stepBuySell` adds a non-negative amount to each of buy/sell whose sum is
at most the (positive) volume, and leaves the other counters alone. -/
lemma stepBuySell_spec (b : FlowBucket) (q : ParsedOption) (hv : 0 < q.volume) :
    b.buy_volume ≤ (b.stepBuySell q).buy_volume ∧
    b.sell_volume ≤ (b.stepBuySell q).sell_volume ∧
    (b.stepBuySell q).buy_volume + (b.stepBuySell q).sell_volume ≤
      b.buy_volume + b.sell_volume + q.volume ∧
    (b.stepBuySell q).total_volume = b.total_volume ∧
    (b.stepBuySell q).atm_volume = b.atm_volume ∧
    (b.stepBuySell q).itm_volume = b.itm_volume ∧
    (b.stepBuySell q).otm_volume = b.otm_volume := by
  unfold stepBuySell
  dsimp only
  split_ifs <;> refine ⟨?_, ?_, ?_, ?_, ?_, ?_, ?_⟩ <;> simp <;> omega

/-- Lemma: `stepStrike` adds the volume to at most one of atm/itm/otm and leaves the
other counters alone. -/
lemma stepStrike_spec (b : FlowBucket) (q : ParsedOption) (hv : 0 < q.volume) :
    b.atm_volume ≤ (b.stepStrike q).atm_volume ∧
    b.itm_volume ≤ (b.stepStrike q).itm_volume ∧
    b.otm_volume ≤ (b.stepStrike q).otm_volume ∧
    (b.stepStrike q).atm_volume + (b.stepStrike q).itm_volume +
        (b.stepStrike q).otm_volume ≤
      b.atm_volume + b.itm_volume + b.otm_volume + q.volume ∧
    (b.stepStrike q).total_volume = b.total_volume ∧
    (b.stepStrike q).buy_volume = b.buy_volume ∧
    (b.stepStrike q).sell_volume = b.sell_volume := by
  unfold stepStrike
  dsimp only
  split_ifs <;> refine ⟨?_, ?_, ?_, ?_, ?_, ?_, ?_⟩ <;> simp <;> omega

/-- The volume-counter invariant maintained by every `FlowBucket` built from
`add_quote`. -/
def VolumeInv (b : FlowBucket) : Prop :=
  0 ≤ b.buy_volume ∧ 0 ≤ b.sell_volume ∧ 0 ≤ b.atm_volume ∧
  0 ≤ b.itm_volume ∧ 0 ≤ b.otm_volume ∧ 0 ≤ b.total_volume ∧
  b.buy_volume + b.sell_volume ≤ b.total_volume ∧
  b.atm_volume + b.itm_volume + b.otm_volume ≤ b.total_volume

lemma volumeInv_addQuote {b : FlowBucket} (q : ParsedOption)
    (h : VolumeInv b) : VolumeInv (b.addQuote q) := by
  unfold addQuote
  split
  · exact h
  · rename_i hvol
    have hv : 0 < q.volume := by omega
    obtain ⟨e1, e2, e3, e4, e5, e6⟩ := stepVolume_counters b q.volume
    obtain ⟨f1, f2, f3, f4, f5, f6⟩ :=
      stepPremium_counters (b.stepVolume q.volume) q
    obtain ⟨g1, g2, g3, g4, g5, g6⟩ :=
      stepNotional_counters ((b.stepVolume q.volume).stepPremium q) q
    obtain ⟨i1, i2, i3, i4, i5, i6⟩ :=
      stepDelta_counters (((b.stepVolume q.volume).stepPremium q).stepNotional
        q) q
    obtain ⟨j1, j2, j3, j4, j5, j6⟩ :=
      stepGamma_counters ((((b.stepVolume q.volume).stepPremium
        q).stepNotional q).stepDelta q) q
    obtain ⟨k1, k2, k3, k4, k5, k6, k7⟩ :=
      stepBuySell_spec (((((b.stepVolume q.volume).stepPremium q).stepNotional
        q).stepDelta q).stepGamma q) q hv
    obtain ⟨l1, l2, l3, l4, l5, l6, l7⟩ :=
      stepStrike_spec ((((((b.stepVolume q.volume).stepPremium q).stepNotional
        q).stepDelta q).stepGamma q).stepBuySell q) q hv
    obtain ⟨m1, m2, m3, m4, m5, m6⟩ :=
      stepSize_counters (((((((b.stepVolume q.volume).stepPremium
        q).stepNotional q).stepDelta q).stepGamma q).stepBuySell q).stepStrike
        q) q
    obtain ⟨n1, n2, n3, n4, n5, n6⟩ :=
      stepOI_counters ((((((((b.stepVolume q.volume).stepPremium
        q).stepNotional q).stepDelta q).stepGamma q).stepBuySell q).stepStrike
        q).stepSize q) q
    obtain ⟨h1, h2, h3, h4, h5, h6, h7, h8⟩ := h
    refine ⟨?_, ?_, ?_, ?_, ?_, ?_, ?_, ?_⟩ <;> omega

/-- The volume-counter invariant is preserved by folding any quote list. -/
lemma volumeInv_foldl_of {b : FlowBucket} (qs : List ParsedOption)
    (h : VolumeInv b) : VolumeInv (qs.foldl FlowBucket.addQuote b) := by
  induction qs generalizing b with
  | nil => exact h
  | cons q qs ih => exact ih (volumeInv_addQuote q h)

/-- The volume-counter invariant over any sequence of quotes added to a fresh
bucket. -/
lemma volumeInv_foldl (symbol option_type : String)
    (bucket_start bucket_end : Nat) (qs : List ParsedOption) :
    VolumeInv (qs.foldl FlowBucket.addQuote
      (FlowBucket.init symbol option_type bucket_start bucket_end)) := by
  apply volumeInv_foldl_of
  refine ⟨le_refl 0, le_refl 0, le_refl 0, le_refl 0, le_refl 0,
    le_refl 0, ?_, ?_⟩ <;> simp [FlowBucket.init]

end FlowBucket

/- ------------------------------------------------------------------ -/
/- Aggregator lookup lemmas.                                          -/
/- ------------------------------------------------------------------ -/

lemma aggLookup_map_addQuote (bs : List (AggKey × FlowBucket)) (k : AggKey)
    (q : ParsedOption) :
    aggLookup (bs.map (fun p => if p.1 = k then (p.1, p.2.addQuote q) else p))
        k =
      (aggLookup bs k).map (fun b => b.addQuote q) := by
  induction bs with
  | nil => simp [aggLookup]
  | cons p bs ih =>
    by_cases h : p.1 = k
    · simp [aggLookup, List.find?, h]
    · simpa [aggLookup, List.find?, h] using ih

lemma aggLookup_append_single (bs : List (AggKey × FlowBucket)) (k : AggKey)
    (b : FlowBucket) (h : aggLookup bs k = none) :
    aggLookup (bs ++ [(k, b)]) k = some b := by
  induction bs with
  | nil => simp [aggLookup, List.find?]
  | cons p bs ih =>
    by_cases hp : p.1 = k
    · simp [aggLookup, List.find?, hp] at h
    · have h' : aggLookup bs k = none := by
        simpa [aggLookup, List.find?, hp] using h
      simpa [aggLookup, List.find?, hp] using ih h'

/-- Each accumulation step leaves the bucket identification fields alone. -/
lemma stepVolume_ids (b : FlowBucket) (v : Int) :
    ((b.stepVolume v).bucket_start = b.bucket_start ∧
     (b.stepVolume v).bucket_end = b.bucket_end) := ⟨rfl, rfl⟩

lemma stepPremium_ids (b : FlowBucket) (q : ParsedOption) :
    ((b.stepPremium q).bucket_start = b.bucket_start ∧
     (b.stepPremium q).bucket_end = b.bucket_end) := by
  unfold FlowBucket.stepPremium; split <;> exact ⟨rfl, rfl⟩

lemma stepNotional_ids (b : FlowBucket) (q : ParsedOption) :
    ((b.stepNotional q).bucket_start = b.bucket_start ∧
     (b.stepNotional q).bucket_end = b.bucket_end) := by
  unfold FlowBucket.stepNotional; split <;> exact ⟨rfl, rfl⟩

lemma stepDelta_ids (b : FlowBucket) (q : ParsedOption) :
    ((b.stepDelta q).bucket_start = b.bucket_start ∧
     (b.stepDelta q).bucket_end = b.bucket_end) := by
  unfold FlowBucket.stepDelta; split <;> exact ⟨rfl, rfl⟩

lemma stepGamma_ids (b : FlowBucket) (q : ParsedOption) :
    ((b.stepGamma q).bucket_start = b.bucket_start ∧
     (b.stepGamma q).bucket_end = b.bucket_end) := by
  unfold FlowBucket.stepGamma; split <;> exact ⟨rfl, rfl⟩

lemma stepBuySell_ids (b : FlowBucket) (q : ParsedOption) :
    ((b.stepBuySell q).bucket_start = b.bucket_start ∧
     (b.stepBuySell q).bucket_end = b.bucket_end) := by
  unfold FlowBucket.stepBuySell; dsimp only
  split_ifs <;> exact ⟨rfl, rfl⟩

lemma stepStrike_ids (b : FlowBucket) (q : ParsedOption) :
    ((b.stepStrike q).bucket_start = b.bucket_start ∧
     (b.stepStrike q).bucket_end = b.bucket_end) := by
  unfold FlowBucket.stepStrike; dsimp only
  split_ifs <;> exact ⟨rfl, rfl⟩

lemma stepSize_ids (b : FlowBucket) (q : ParsedOption) :
    ((b.stepSize q).bucket_start = b.bucket_start ∧
     (b.stepSize q).bucket_end = b.bucket_end) := by
  unfold FlowBucket.stepSize; split <;> exact ⟨rfl, rfl⟩

lemma stepOI_ids (b : FlowBucket) (q : ParsedOption) :
    ((b.stepOI q).bucket_start = b.bucket_start ∧
     (b.stepOI q).bucket_end = b.bucket_end) := by
  unfold FlowBucket.stepOI; split <;> exact ⟨rfl, rfl⟩

/-- Lemma: `add_quote` never changes a bucket's start and end. -/
lemma addQuote_ids (b : FlowBucket) (q : ParsedOption) :
    ((b.addQuote q).bucket_start = b.bucket_start ∧
     (b.addQuote q).bucket_end = b.bucket_end) := by
  unfold FlowBucket.addQuote
  split
  · exact ⟨rfl, rfl⟩
  · obtain ⟨a1, a2⟩ := stepVolume_ids b q.volume
    obtain ⟨b1, b2⟩ := stepPremium_ids (b.stepVolume q.volume) q
    obtain ⟨c1, c2⟩ := stepNotional_ids ((b.stepVolume q.volume).stepPremium q) q
    obtain ⟨d1, d2⟩ := stepDelta_ids
      (((b.stepVolume q.volume).stepPremium q).stepNotional q) q
    obtain ⟨e1, e2⟩ := stepGamma_ids
      ((((b.stepVolume q.volume).stepPremium q).stepNotional q).stepDelta q) q
    obtain ⟨f1, f2⟩ := stepBuySell_ids
      (((((b.stepVolume q.volume).stepPremium q).stepNotional q).stepDelta
        q).stepGamma q) q
    obtain ⟨g1, g2⟩ := stepStrike_ids
      ((((((b.stepVolume q.volume).stepPremium q).stepNotional q).stepDelta
        q).stepGamma q).stepBuySell q) q
    obtain ⟨i1, i2⟩ := stepSize_ids
      (((((((b.stepVolume q.volume).stepPremium q).stepNotional q).stepDelta
        q).stepGamma q).stepBuySell q).stepStrike q) q
    obtain ⟨j1, j2⟩ := stepOI_ids
      ((((((((b.stepVolume q.volume).stepPremium q).stepNotional q).stepDelta
        q).stepGamma q).stepBuySell q).stepStrike q).stepSize q) q
    constructor
    · rw [j1, i1, g1, f1, e1, d1, c1, b1, a1]
    · rw [j2, i2, g2, f2, e2, d2, c2, b2, a2]

/-- When no bucket exists yet for the quote's key, `add_quote` creates one
for the quote's 5-minute window and adds the quote to it. -/
lemma aggAddQuote_of_absent (bs : List (AggKey × FlowBucket))
    (q : ParsedOption) (h : aggLookup bs (aggBucketKey q) = none) :
    aggLookup (aggAddQuote bs q) (aggBucketKey q) =
      some ((FlowBucket.init q.underlying q.option_type
        (getBucketTimestamp q.timestamp)
        (getBucketTimestamp q.timestamp + 300000000)).addQuote q) := by
  unfold aggBucketKey at h ⊢
  unfold aggAddQuote
  dsimp only
  rw [if_neg (by simp [h])]
  rw [aggLookup_map_addQuote, aggLookup_append_single bs _ _ h]
  rfl

/-- A concrete stream quote used to instantiate hypothesis-bearing theorems:
timestamped 2024-02-05T14:27:31Z (1707143251000000 microseconds since the
epoch). -/
def sampleQuote : ParsedOption :=
  { timestamp := 1707143251000000, symbol := "SPY 240205C500", underlying := "SPY",
    underlying_price := 500, strike := 500, expiration := 19758, dte := 0,
    option_type := "call", bid := 1, ask := 2, mid := 3/2, last := 2,
    volume := 5, open_interest := 10, implied_vol := 15/100,
    source := "tradestation_stream", spread_pct := some (2/3), delta := 1/2,
    gamma := 1/100, theta := -1/10, vega := 1/5, rho := 1/100,
    is_calculated := true }

/-- C7: every quote lands in the 5-minute bucket whose start is the quote's
timestamp floored to a multiple of 5 minutes (zero seconds and microseconds)
and whose end is start + 5 minutes, with `bucket_start ≤ t < bucket_end`; a
quote at 2024-02-05T14:27:31Z lands in the bucket
[2024-02-05T14:25:00Z, 2024-02-05T14:30:00Z). -/
theorem flow_bucket_assignment :
    (∀ t : Nat,
      getBucketTimestamp t ≤ t ∧
      t < getBucketTimestamp t + 300000000 ∧
      dtMinute (getBucketTimestamp t) % 5 = 0 ∧
      dtSecond (getBucketTimestamp t) = 0 ∧
      dtMicrosecond (getBucketTimestamp t) = 0) ∧
    (∀ (bs : List (AggKey × FlowBucket)) (q : ParsedOption),
      aggLookup bs (aggBucketKey q) = none →
      ∃ b, aggLookup (aggAddQuote bs q) (aggBucketKey q) = some b ∧
        b.bucket_start = getBucketTimestamp q.timestamp ∧
        b.bucket_end = b.bucket_start + 300000000 ∧
        b.bucket_start ≤ q.timestamp ∧ q.timestamp < b.bucket_end) ∧
    getBucketTimestamp 1707143251000000 = 1707143100000000 ∧
    getBucketTimestamp 1707143251000000 + 300000000 = 1707143400000000 := by
  refine ⟨?_, ?_, ?_, ?_⟩
  · intro t
    exact ⟨getBucketTimestamp_le t, lt_getBucketTimestamp_add t,
      getBucketTimestamp_minute_aligned t, getBucketTimestamp_second_zero t,
      getBucketTimestamp_micro_zero t⟩
  · intro bs q h
    obtain ⟨hs, he⟩ := addQuote_ids (FlowBucket.init q.underlying
      q.option_type (getBucketTimestamp q.timestamp)
      (getBucketTimestamp q.timestamp + 300000000)) q
    refine ⟨_, aggAddQuote_of_absent bs q h, ?_, ?_, ?_, ?_⟩
    · rw [hs]; rfl
    · rw [hs, he]; rfl
    · rw [hs]
      exact getBucketTimestamp_le q.timestamp
    · rw [he]
      exact lt_getBucketTimestamp_add q.timestamp
  · rw [getBucketTimestamp_eq]
  · rw [getBucketTimestamp_eq]

/-- C7 witness: the theorem applied at the 2024-02-05T14:27:31Z sample quote
and an empty bucket map. -/
theorem flow_bucket_assignment_witness :
    aggLookup [] (aggBucketKey sampleQuote) = none ∧
    ∃ b, aggLookup (aggAddQuote [] sampleQuote) (aggBucketKey sampleQuote) =
        some b ∧
      b.bucket_start = getBucketTimestamp sampleQuote.timestamp ∧
      b.bucket_end = b.bucket_start + 300000000 ∧
      b.bucket_start ≤ sampleQuote.timestamp ∧
      sampleQuote.timestamp < b.bucket_end :=
  ⟨rfl, flow_bucket_assignment.2.1 [] sampleQuote rfl⟩

/-- C8: for every `FlowBucket` state reachable by any sequence of `add_quote`
calls from a fresh bucket, `buy_volume + sell_volume ≤ total_volume`,
`atm_volume + itm_volume + otm_volume ≤ total_volume`, and all the volume
counters are non-negative. -/
theorem flowBucket_volume_invariant (symbol option_type : String)
    (bucket_start bucket_end : Nat) (qs : List ParsedOption) :
    0 ≤ (qs.foldl FlowBucket.addQuote
        (FlowBucket.init symbol option_type bucket_start
          bucket_end)).buy_volume ∧
    0 ≤ (qs.foldl FlowBucket.addQuote
        (FlowBucket.init symbol option_type bucket_start
          bucket_end)).sell_volume ∧
    0 ≤ (qs.foldl FlowBucket.addQuote
        (FlowBucket.init symbol option_type bucket_start
          bucket_end)).atm_volume ∧
    0 ≤ (qs.foldl FlowBucket.addQuote
        (FlowBucket.init symbol option_type bucket_start
          bucket_end)).itm_volume ∧
    0 ≤ (qs.foldl FlowBucket.addQuote
        (FlowBucket.init symbol option_type bucket_start
          bucket_end)).otm_volume ∧
    0 ≤ (qs.foldl FlowBucket.addQuote
        (FlowBucket.init symbol option_type bucket_start
          bucket_end)).total_volume ∧
    (qs.foldl FlowBucket.addQuote
        (FlowBucket.init symbol option_type bucket_start
          bucket_end)).buy_volume +
      (qs.foldl FlowBucket.addQuote
        (FlowBucket.init symbol option_type bucket_start
          bucket_end)).sell_volume ≤
      (qs.foldl FlowBucket.addQuote
        (FlowBucket.init symbol option_type bucket_start
          bucket_end)).total_volume ∧
    (qs.foldl FlowBucket.addQuote
        (FlowBucket.init symbol option_type bucket_start
          bucket_end)).atm_volume +
      (qs.foldl FlowBucket.addQuote
        (FlowBucket.init symbol option_type bucket_start
          bucket_end)).itm_volume +
      (qs.foldl FlowBucket.addQuote
        (FlowBucket.init symbol option_type bucket_start
          bucket_end)).otm_volume ≤
      (qs.foldl FlowBucket.addQuote
        (FlowBucket.init symbol option_type bucket_start
          bucket_end)).total_volume :=
  FlowBucket.volumeInv_foldl symbol option_type bucket_start bucket_end qs

/- ------------------------------------------------------------------ -/
/- GEX calculator (gex_calculator.py).  Option rows as fetched by     -/
/- `_fetch_options_data` (the SQL filters to `gamma > 0` and takes    -/
/- the most recent row per (strike, option_type)).                    -/
/- ------------------------------------------------------------------ -/

structure OptionData where
  strike : ℚ
  option_type : String
  gamma : ℚ
  delta : ℚ
  vega : ℚ
  open_interest : Int
  volume : Int
  underlying_price : ℚ
deriving Repr, DecidableEq

/-- Embeds `StrikeGammaProfile` (gex_metrics.py:12). -/
structure StrikeGammaProfile where
  strike : ℚ
  call_gamma : ℚ
  put_gamma : ℚ
  net_gamma : ℚ
  total_gamma : ℚ
  call_oi : Int
  put_oi : Int
  call_volume : Int
  put_volume : Int
deriving Repr, DecidableEq

/-- The zero-initialised profile created for a strike when first seen
(gex_calculator.py:317). -/
def StrikeGammaProfile.blank (strike : ℚ) : StrikeGammaProfile :=
  { strike := strike, call_gamma := 0, put_gamma := 0, net_gamma := 0,
    total_gamma := 0, call_oi := 0, put_oi := 0, call_volume := 0,
    put_volume := 0 }

/-- The per-strike profile dict as an association list keyed by strike. -/
def profLookup (ps : List (ℚ × StrikeGammaProfile)) (K : ℚ) :
    Option StrikeGammaProfile :=
  (ps.find? (fun p => decide (p.1 = K))).map Prod.snd

/-- Insert a blank profile at a strike if absent (Python
`if strike not in profiles`). -/
def profEnsure (ps : List (ℚ × StrikeGammaProfile)) (K : ℚ) :
    List (ℚ × StrikeGammaProfile) :=
  if (profLookup ps K).isSome then ps
  else ps ++ [(K, StrikeGammaProfile.blank K)]

/-- Update the profile stored at a strike in place. -/
def profModify (ps : List (ℚ × StrikeGammaProfile)) (K : ℚ)
    (f : StrikeGammaProfile → StrikeGammaProfile) :
    List (ℚ × StrikeGammaProfile) :=
  ps.map (fun p => if p.1 = K then (p.1, f p.2) else p)

/-- Embeds `gamma_exposure = gamma * open_interest * 100 * underlying_price`
(gex_calculator.py:313, CONTRACT_MULTIPLIER = 100). -/
def gammaExposure (o : OptionData) (underlying_price : ℚ) : ℚ :=
  o.gamma * o.open_interest * 100 * underlying_price

/-- Processing one call row in `_calculate_strike_profiles`
(gex_calculator.py:311). -/
def addCallToProfiles (underlying_price : ℚ)
    (ps : List (ℚ × StrikeGammaProfile)) (o : OptionData) :
    List (ℚ × StrikeGammaProfile) :=
  profModify (profEnsure ps o.strike) o.strike (fun pr =>
    { pr with call_gamma := pr.call_gamma + gammaExposure o underlying_price,
              call_oi := pr.call_oi + o.open_interest,
              call_volume := pr.call_volume + o.volume })

/-- Processing one put row in `_calculate_strike_profiles`
(gex_calculator.py:334). -/
def addPutToProfiles (underlying_price : ℚ)
    (ps : List (ℚ × StrikeGammaProfile)) (o : OptionData) :
    List (ℚ × StrikeGammaProfile) :=
  profModify (profEnsure ps o.strike) o.strike (fun pr =>
    { pr with put_gamma := pr.put_gamma + gammaExposure o underlying_price,
              put_oi := pr.put_oi + o.open_interest,
              put_volume := pr.put_volume + o.volume })

/-- The final pass of `_calculate_strike_profiles` (gex_calculator.py:357):
`net = call - put`, `total = call + put` per strike. -/
def finalizeProfiles (ps : List (ℚ × StrikeGammaProfile)) :
    List (ℚ × StrikeGammaProfile) :=
  ps.map (fun p => (p.1,
    { p.2 with net_gamma := p.2.call_gamma - p.2.put_gamma,
               total_gamma := p.2.call_gamma + p.2.put_gamma }))

/-- Embeds `GEXCalculator._calculate_strike_profiles` (gex_calculator.py:291). -/
def calculateStrikeProfiles (calls puts : List OptionData)
    (underlying_price : ℚ) : List (ℚ × StrikeGammaProfile) :=
  finalizeProfiles
    (puts.foldl (addPutToProfiles underlying_price)
      (calls.foldl (addCallToProfiles underlying_price) []))

/-- Embeds `GEXCalculator._find_max_gamma_strike` (gex_calculator.py:364): Python
`max(..., key=total_gamma)` keeps the first maximal entry in dict order. -/
def findMaxGammaStrike (ps : List (ℚ × StrikeGammaProfile)) : ℚ × ℚ :=
  match ps with
  | [] => (0, 0)
  | p :: rest =>
    let best := rest.foldl
      (fun acc x => if acc.2.total_gamma < x.2.total_gamma then x else acc) p
    (best.1, best.2.total_gamma)

/-- The net gamma stored at a strike (`strike_profiles[strike].net_gamma`). -/
def netGammaAt (ps : List (ℚ × StrikeGammaProfile)) (K : ℚ) : ℚ :=
  ((profLookup ps K).map StrikeGammaProfile.net_gamma).getD 0

/-- The adjacent-pair scan of `_find_gamma_flip` (gex_calculator.py:400):
walk consecutive strikes; on the first strictly opposite-signed pair of net
gammas, return the linear interpolation of the zero crossing. -/
def flipScan (netAt : ℚ → ℚ) : List ℚ → Option ℚ
  | K1 :: K2 :: rest =>
    let net1 := netAt K1
    let net2 := netAt K2
    if (net1 > 0 ∧ net2 < 0) ∨ (net1 < 0 ∧ net2 > 0) then
      some (K1 + (K2 - K1) * |net1| / (|net1| + |net2|))
    else flipScan netAt (K2 :: rest)
  | _ => none

/-- The ascending strike list `sorted(strike_profiles.keys())`. -/
def sortedStrikes (ps : List (ℚ × StrikeGammaProfile)) : List ℚ :=
  List.insertionSort (· ≤ ·) (ps.map Prod.fst)

/-- Embeds `GEXCalculator._find_gamma_flip` (gex_calculator.py:380).  The spot
argument is unused in the source as well. -/
def findGammaFlip (ps : List (ℚ × StrikeGammaProfile)) (spot_price : ℚ) :
    Option ℚ :=
  let strikes := sortedStrikes ps
  if strikes.length < 2 then none
  else flipScan (netGammaAt ps) strikes

/-- The inner loop of `_calculate_max_pain` (gex_calculator.py:449): total
intrinsic value retained by holders if the underlying closes at `K`
(contracts with zero open interest are skipped). -/
def painAt (options_data : List OptionData) (K : ℚ) : ℚ :=
  options_data.foldl (fun total_value o =>
    if o.open_interest = 0 then total_value
    else total_value +
      (if o.option_type = "call" then max 0 (K - o.strike)
       else max 0 (o.strike - K)) * o.open_interest * 100) 0

/-- The minimum search of `_calculate_max_pain` (gex_calculator.py:446):
`none` as the running minimum models the initial `float('inf')`, so the
first candidate always becomes the incumbent; later candidates replace it
only on a strictly smaller pain. -/
def maxPainLoop (options_data : List OptionData) :
    List ℚ → ℚ → Option ℚ → ℚ
  | [], best, _ => best
  | K :: rest, best, bestVal =>
    let total_value := painAt options_data K
    match bestVal with
    | none => maxPainLoop options_data rest K (some total_value)
    | some mv =>
      if total_value < mv then maxPainLoop options_data rest K
        (some total_value)
      else maxPainLoop options_data rest best (some mv)

/-- Embeds `GEXCalculator._calculate_max_pain` (gex_calculator.py:418): minimise
the pain over the distinct strikes present in the data, in ascending
order (`sorted(set(...))`). -/
def calculateMaxPain (options_data : List OptionData) (current_price : ℚ) :
    ℚ :=
  if options_data.isEmpty then current_price
  else maxPainLoop options_data
    (List.insertionSort (· ≤ ·) ((options_data.map OptionData.strike).dedup))
    current_price none

/-- Embeds `GEXMetrics` (gex_metrics.py:36); dates become day numbers, the
timestamp a microsecond count. -/
structure GEXMetrics where
  symbol : String
  expiration : Int
  timestamp : Nat
  underlying_price : ℚ
  total_gamma_exposure : ℚ
  call_gamma : ℚ
  put_gamma : ℚ
  net_gex : ℚ
  call_volume : Int
  put_volume : Int
  call_oi : Int
  put_oi : Int
  total_contracts : Int
  max_gamma_strike : ℚ
  max_gamma_value : ℚ
  gamma_flip_point : Option ℚ
  max_pain : ℚ
  put_call_ratio : ℚ
  vanna_exposure : ℚ
  charm_exposure : ℚ
  strike_profiles : List (ℚ × StrikeGammaProfile)
deriving Repr, DecidableEq

/-- Embeds `GEXCalculator._calculate_gex_metrics` (gex_calculator.py:193). -/
def calculateGexMetrics (symbol : String) (expiration : Int)
    (timestamp : Nat) (underlying_price : ℚ)
    (options_data : List OptionData) : GEXMetrics :=
  let calls := options_data.filter (fun o => o.option_type = "call")
  let puts := options_data.filter (fun o => o.option_type = "put")
  let strike_profiles := calculateStrikeProfiles calls puts underlying_price
  let total_call_gamma :=
    (strike_profiles.map (fun p => p.2.call_gamma)).sum
  let total_put_gamma :=
    (strike_profiles.map (fun p => p.2.put_gamma)).sum
  let net_gex := total_call_gamma - total_put_gamma
  let total_gamma := total_call_gamma + total_put_gamma
  let mx := findMaxGammaStrike strike_profiles
  let gamma_flip := findGammaFlip strike_profiles underlying_price
  let max_pain := calculateMaxPain options_data underlying_price
  let call_volume := (calls.map OptionData.volume).sum
  let put_volume := (puts.map OptionData.volume).sum
  let call_oi := (calls.map OptionData.open_interest).sum
  let put_oi := (puts.map OptionData.open_interest).sum
  let pc_ratio : ℚ := if call_oi > 0 then (put_oi : ℚ) / (call_oi : ℚ) else 0
  let vanna := (options_data.map
    (fun o => o.vega * o.delta * (o.open_interest : ℚ))).sum
  let charm := (options_data.map
    (fun o => o.gamma * o.delta * (o.open_interest : ℚ))).sum
  { symbol := symbol, expiration := expiration, timestamp := timestamp,
    underlying_price := underlying_price,
    total_gamma_exposure := total_gamma,
    call_gamma := total_call_gamma, put_gamma := total_put_gamma,
    net_gex := net_gex, call_volume := call_volume, put_volume := put_volume,
    call_oi := call_oi, put_oi := put_oi,
    total_contracts := call_oi + put_oi,
    max_gamma_strike := mx.1, max_gamma_value := mx.2,
    gamma_flip_point := gamma_flip, max_pain := max_pain,
    put_call_ratio := pc_ratio, vanna_exposure := vanna,
    charm_exposure := charm, strike_profiles := strike_profiles }

/-- The spot used by `GEXCalculator.calculate_current_gex`
(gex_calculator.py:66): the provided override when present, else the
`underlying_price` column of the first fetched option row.  The empty case
is unreachable: the caller returns `None` first when no rows exist. -/
def calcCurrentGexSpot (options_data : List OptionData)
    (current_price : Option ℚ) : ℚ :=
  match current_price with
  | some p => p
  | none =>
    match options_data with
    | o :: _ => o.underlying_price
    | [] => 0

/-- Embeds `GEXCalculator.calculate_current_gex` (gex_calculator.py:33) after the
database fetch: no snapshot when no rows, else the metrics computed at the
chosen spot. -/
def calculateCurrentGex (symbol : String) (expiration : Int)
    (timestamp : Nat) (current_price : Option ℚ)
    (options_data : List OptionData) : Option GEXMetrics :=
  if options_data.isEmpty then none
  else some (calculateGexMetrics symbol expiration timestamp
    (calcCurrentGexSpot options_data current_price) options_data)

/- ------------------------------------------------------------------ -/
/- Generic helpers.                                                   -/
/- ------------------------------------------------------------------ -/

lemma foldl_preserves {α β : Type} (P : β → Prop) (f : β → α → β)
    (l : List α) (b : β) (hb : P b)
    (hf : ∀ s a, a ∈ l → P s → P (f s a)) : P (l.foldl f b) := by
  induction l generalizing b with
  | nil => exact hb
  | cons x xs ih =>
    exact ih (f b x) (hf b x (by simp) hb)
      (fun s a ha hs => hf s a (by simp [ha]) hs)

/-- Minimum of a non-empty list of rationals (0 on the empty list). -/
def listMin : List ℚ → ℚ
  | [] => 0
  | x :: xs => xs.foldl min x

/-- Maximum of a non-empty list of rationals (0 on the empty list). -/
def listMax : List ℚ → ℚ
  | [] => 0
  | x :: xs => xs.foldl max x

lemma foldl_min_le_acc (xs : List ℚ) (acc : ℚ) : xs.foldl min acc ≤ acc := by
  induction xs generalizing acc with
  | nil => exact le_refl acc
  | cons x xs ih => exact le_trans (ih (min acc x)) (min_le_left acc x)

lemma foldl_min_le_mem {a : ℚ} (xs : List ℚ) (acc : ℚ) (h : a ∈ xs) :
    xs.foldl min acc ≤ a := by
  induction xs generalizing acc with
  | nil => cases h
  | cons x xs ih =>
    rcases List.mem_cons.mp h with rfl | h'
    · exact le_trans (foldl_min_le_acc xs (min acc a)) (min_le_right acc a)
    · exact ih (min acc x) h'

lemma acc_le_foldl_max (xs : List ℚ) (acc : ℚ) : acc ≤ xs.foldl max acc := by
  induction xs generalizing acc with
  | nil => exact le_refl acc
  | cons x xs ih => exact le_trans (le_max_left acc x) (ih (max acc x))

lemma mem_le_foldl_max {a : ℚ} (xs : List ℚ) (acc : ℚ) (h : a ∈ xs) :
    a ≤ xs.foldl max acc := by
  induction xs generalizing acc with
  | nil => cases h
  | cons x xs ih =>
    rcases List.mem_cons.mp h with rfl | h'
    · exact le_trans (le_max_right acc a) (acc_le_foldl_max xs (max acc a))
    · exact ih (max acc x) h'

lemma listMin_le_of_mem {a : ℚ} {l : List ℚ} (h : a ∈ l) : listMin l ≤ a := by
  cases l with
  | nil => cases h
  | cons x xs =>
    rcases List.mem_cons.mp h with rfl | h'
    · exact foldl_min_le_acc xs a
    · exact foldl_min_le_mem xs x h'

lemma le_listMax_of_mem {a : ℚ} {l : List ℚ} (h : a ∈ l) : a ≤ listMax l := by
  cases l with
  | nil => cases h
  | cons x xs =>
    rcases List.mem_cons.mp h with rfl | h'
    · exact acc_le_foldl_max xs a
    · exact mem_le_foldl_max xs x h'

/- ------------------------------------------------------------------ -/
/- Adjacent pairs of a list.                                          -/
/- ------------------------------------------------------------------ -/

/-- The consecutive pairs of a list. -/
def adjPairs (l : List ℚ) : List (ℚ × ℚ) := l.zip l.tail

lemma adjPairs_cons_cons (K1 K2 : ℚ) (rest : List ℚ) :
    adjPairs (K1 :: K2 :: rest) = (K1, K2) :: adjPairs (K2 :: rest) := rfl

lemma adjPairs_mem_left {a b : ℚ} :
    ∀ {l : List ℚ}, (a, b) ∈ adjPairs l → a ∈ l ∧ b ∈ l := by
  intro l
  induction l with
  | nil => intro h; cases h
  | cons x xs ih =>
    cases xs with
    | nil => intro h; cases h
    | cons y ys =>
      intro h
      rcases List.mem_cons.mp h with heq | h'
      · obtain ⟨rfl, rfl⟩ := Prod.mk.injEq .. ▸ (Prod.ext_iff.mp heq)
        exact ⟨List.mem_cons_self _ _, List.mem_cons_of_mem _
          (List.mem_cons_self _ _)⟩
      · obtain ⟨ha, hb⟩ := ih h'
        exact ⟨List.mem_cons_of_mem _ ha, List.mem_cons_of_mem _ hb⟩

lemma adjPairs_le_of_sorted {l : List ℚ} (hs : l.Sorted (· ≤ ·)) :
    ∀ p ∈ adjPairs l, p.1 ≤ p.2 := by
  induction l with
  | nil => intro p hp; cases hp
  | cons x xs ih =>
    cases xs with
    | nil => intro p hp; cases hp
    | cons y ys =>
      intro p hp
      obtain ⟨hx, hs'⟩ := List.sorted_cons.mp hs
      rcases List.mem_cons.mp hp with rfl | hp'
      · exact hx y (List.mem_cons_self _ _)
      · exact ih hs' p hp'

lemma adjPairs_ne_of_nodup {l : List ℚ} (hn : l.Nodup) :
    ∀ p ∈ adjPairs l, p.1 ≠ p.2 := by
  induction l with
  | nil => intro p hp; cases hp
  | cons x xs ih =>
    cases xs with
    | nil => intro p hp; cases hp
    | cons y ys =>
      intro p hp
      obtain ⟨hx, hn'⟩ := List.nodup_cons.mp hn
      rcases List.mem_cons.mp hp with rfl | hp'
      · intro hxy
        have hxy' : x = y := hxy
        exact hx (hxy' ▸ List.mem_cons_self y ys)
      · exact ih hn' p hp'

/- ------------------------------------------------------------------ -/
/- flipScan characterisation.                                         -/
/- ------------------------------------------------------------------ -/

/-- The sign-change condition used by `_find_gamma_flip` on a pair of net
gammas. -/
def flipCond (netAt : ℚ → ℚ) (p : ℚ × ℚ) : Prop :=
  (netAt p.1 > 0 ∧ netAt p.2 < 0) ∨ (netAt p.1 < 0 ∧ netAt p.2 > 0)

instance (netAt : ℚ → ℚ) (p : ℚ × ℚ) : Decidable (flipCond netAt p) := by
  unfold flipCond; infer_instance

lemma flipScan_eq_some {netAt : ℚ → ℚ} :
    ∀ {l : List ℚ} {f : ℚ}, flipScan netAt l = some f →
      ∃ K1 K2, (K1, K2) ∈ adjPairs l ∧ flipCond netAt (K1, K2) ∧
        f = K1 + (K2 - K1) * |netAt K1| / (|netAt K1| + |netAt K2|) := by
  intro l
  induction l with
  | nil => intro f h; simp [flipScan] at h
  | cons K1 xs ih =>
    cases xs with
    | nil => intro f h; simp [flipScan] at h
    | cons K2 rest =>
      intro f h
      rw [flipScan] at h
      by_cases hc : (netAt K1 > 0 ∧ netAt K2 < 0) ∨
          (netAt K1 < 0 ∧ netAt K2 > 0)
      · rw [if_pos hc] at h
        refine ⟨K1, K2, by simp [adjPairs_cons_cons], hc, ?_⟩
        exact (Option.some.injEq .. ▸ h).symm
      · rw [if_neg hc] at h
        obtain ⟨Ka, Kb, hmem, hcond, hf⟩ := ih h
        exact ⟨Ka, Kb, by simp [adjPairs_cons_cons, hmem], hcond, hf⟩

lemma flipScan_eq_none {netAt : ℚ → ℚ} :
    ∀ {l : List ℚ}, (∀ p ∈ adjPairs l, ¬ flipCond netAt p) →
      flipScan netAt l = none := by
  intro l
  induction l with
  | nil => intro _; rfl
  | cons K1 xs ih =>
    cases xs with
    | nil => intro _; rfl
    | cons K2 rest =>
      intro h
      rw [flipScan]
      have hc : ¬(netAt K1 > 0 ∧ netAt K2 < 0 ∨
          netAt K1 < 0 ∧ netAt K2 > 0) :=
        h (K1, K2) (by simp [adjPairs_cons_cons])
      rw [if_neg hc]
      exact ih (fun p hp => h p (by simp [adjPairs_cons_cons, hp]))

/-- Interpolated zero crossing lies between the two (ordered) strikes; the
bounds are strict when the strikes differ. -/
lemma interp_bounds {K1 K2 n1 n2 : ℚ} (hle : K1 ≤ K2)
    (h1 : n1 ≠ 0) (h2 : n2 ≠ 0) :
    K1 ≤ K1 + (K2 - K1) * |n1| / (|n1| + |n2|) ∧
    K1 + (K2 - K1) * |n1| / (|n1| + |n2|) ≤ K2 ∧
    (K1 < K2 → K1 < K1 + (K2 - K1) * |n1| / (|n1| + |n2|) ∧
      K1 + (K2 - K1) * |n1| / (|n1| + |n2|) < K2) := by
  have ha1 : 0 < |n1| := abs_pos.mpr h1
  have ha2 : 0 < |n2| := abs_pos.mpr h2
  have hd : 0 < |n1| + |n2| := by linarith
  refine ⟨?_, ?_, ?_⟩
  · have : 0 ≤ (K2 - K1) * |n1| / (|n1| + |n2|) :=
      div_nonneg (mul_nonneg (by linarith) (le_of_lt ha1)) (le_of_lt hd)
    linarith
  · have hmul : (K2 - K1) * |n1| ≤ (K2 - K1) * (|n1| + |n2|) :=
      mul_le_mul_of_nonneg_left (by linarith) (by linarith)
    have := (div_le_iff hd).mpr (le_trans hmul (le_of_eq rfl))
    have h3 : (K2 - K1) * |n1| / (|n1| + |n2|) ≤ K2 - K1 := by
      rw [div_le_iff hd]
      calc (K2 - K1) * |n1| ≤ (K2 - K1) * (|n1| + |n2|) := hmul
        _ = (K2 - K1) * (|n1| + |n2|) := rfl
    linarith
  · intro hlt
    constructor
    · have : 0 < (K2 - K1) * |n1| / (|n1| + |n2|) :=
        div_pos (mul_pos (by linarith) ha1) hd
      linarith
    · have hmul : (K2 - K1) * |n1| < (K2 - K1) * (|n1| + |n2|) :=
        mul_lt_mul_of_pos_left (by linarith) (by linarith)
      have h3 : (K2 - K1) * |n1| / (|n1| + |n2|) < K2 - K1 := by
        rw [div_lt_iff hd]; exact hmul
      linarith

/- ------------------------------------------------------------------ -/
/- Strike-profile map lemmas.                                         -/
/- ------------------------------------------------------------------ -/

lemma profModify_keys (ps : List (ℚ × StrikeGammaProfile)) (K : ℚ)
    (f : StrikeGammaProfile → StrikeGammaProfile) :
    (profModify ps K f).map Prod.fst = ps.map Prod.fst := by
  induction ps with
  | nil => rfl
  | cons p ps ih =>
    simp only [profModify, List.map_cons] at *
    have hhead : (if p.1 = K then (p.1, f p.2) else p).1 = p.1 := by
      split <;> rfl
    rw [ih, hhead]

lemma profEnsure_keys (ps : List (ℚ × StrikeGammaProfile)) (K : ℚ) :
    (profEnsure ps K).map Prod.fst = ps.map Prod.fst ∨
    (profEnsure ps K).map Prod.fst = ps.map Prod.fst ++ [K] := by
  unfold profEnsure
  split
  · exact Or.inl rfl
  · right; simp

lemma finalizeProfiles_keys (ps : List (ℚ × StrikeGammaProfile)) :
    (finalizeProfiles ps).map Prod.fst = ps.map Prod.fst := by
  induction ps with
  | nil => rfl
  | cons p ps ih =>
    simp only [finalizeProfiles, List.map_cons] at *
    congr 1

lemma mem_profEnsure {ps : List (ℚ × StrikeGammaProfile)} {K : ℚ}
    {p : ℚ × StrikeGammaProfile} (hp : p ∈ profEnsure ps K) :
    p ∈ ps ∨ p = (K, StrikeGammaProfile.blank K) := by
  unfold profEnsure at hp
  split at hp
  · exact Or.inl hp
  · rcases List.mem_append.mp hp with h | h
    · exact Or.inl h
    · exact Or.inr (List.mem_singleton.mp h)

lemma mem_profModify {ps : List (ℚ × StrikeGammaProfile)} {K : ℚ}
    {f : StrikeGammaProfile → StrikeGammaProfile}
    {p : ℚ × StrikeGammaProfile} (hp : p ∈ profModify ps K f) :
    ∃ p0 ∈ ps, p = if p0.1 = K then (p0.1, f p0.2) else p0 := by
  obtain ⟨p0, hp0, hval⟩ := List.mem_map.mp hp
  exact ⟨p0, hp0, hval.symm⟩

lemma gammaExposure_nonneg {o : OptionData} {underlying_price : ℚ}
    (hγ : 0 ≤ o.gamma) (hoi : 0 ≤ o.open_interest)
    (hup : 0 ≤ underlying_price) : 0 ≤ gammaExposure o underlying_price := by
  unfold gammaExposure
  have hoi' : (0 : ℚ) ≤ (o.open_interest : ℚ) := by exact_mod_cast hoi
  exact mul_nonneg (mul_nonneg (mul_nonneg hγ hoi') (by norm_num)) hup

/-- Both accumulated gammas stay non-negative under call processing. -/
lemma addCallToProfiles_nonneg {ps : List (ℚ × StrikeGammaProfile)}
    {o : OptionData} {underlying_price : ℚ}
    (hg : 0 ≤ gammaExposure o underlying_price)
    (h : ∀ p ∈ ps, 0 ≤ p.2.call_gamma ∧ 0 ≤ p.2.put_gamma) :
    ∀ p ∈ addCallToProfiles underlying_price ps o,
      0 ≤ p.2.call_gamma ∧ 0 ≤ p.2.put_gamma := by
  intro p hp
  obtain ⟨p0, hp0, hval⟩ := mem_profModify hp
  have h0 : 0 ≤ p0.2.call_gamma ∧ 0 ≤ p0.2.put_gamma := by
    rcases mem_profEnsure hp0 with h' | h'
    · exact h p0 h'
    · rw [h']; exact ⟨le_refl 0, le_refl 0⟩
  subst hval
  split
  · exact ⟨add_nonneg h0.1 hg, h0.2⟩
  · exact h0

/-- Both accumulated gammas stay non-negative under put processing. -/
lemma addPutToProfiles_nonneg {ps : List (ℚ × StrikeGammaProfile)}
    {o : OptionData} {underlying_price : ℚ}
    (hg : 0 ≤ gammaExposure o underlying_price)
    (h : ∀ p ∈ ps, 0 ≤ p.2.call_gamma ∧ 0 ≤ p.2.put_gamma) :
    ∀ p ∈ addPutToProfiles underlying_price ps o,
      0 ≤ p.2.call_gamma ∧ 0 ≤ p.2.put_gamma := by
  intro p hp
  obtain ⟨p0, hp0, hval⟩ := mem_profModify hp
  have h0 : 0 ≤ p0.2.call_gamma ∧ 0 ≤ p0.2.put_gamma := by
    rcases mem_profEnsure hp0 with h' | h'
    · exact h p0 h'
    · rw [h']; exact ⟨le_refl 0, le_refl 0⟩
  subst hval
  split
  · exact ⟨h0.1, add_nonneg h0.2 hg⟩
  · exact h0

/-- Entries of the finalised profile map keep the accumulated gammas. -/
lemma mem_finalizeProfiles {ps : List (ℚ × StrikeGammaProfile)}
    {p : ℚ × StrikeGammaProfile} (hp : p ∈ finalizeProfiles ps) :
    ∃ p0 ∈ ps, p.2.call_gamma = p0.2.call_gamma ∧
      p.2.put_gamma = p0.2.put_gamma := by
  obtain ⟨p0, hp0, hval⟩ := List.mem_map.mp hp
  exact ⟨p0, hp0, by rw [← hval], by rw [← hval]⟩

/-- Every entry of `calculateStrikeProfiles` has non-negative call and put
gamma exposures when the inputs have non-negative gamma, open interest and
spot. -/
lemma calculateStrikeProfiles_nonneg {calls puts : List OptionData}
    {underlying_price : ℚ}
    (hc : ∀ o ∈ calls, 0 ≤ o.gamma ∧ 0 ≤ o.open_interest)
    (hp : ∀ o ∈ puts, 0 ≤ o.gamma ∧ 0 ≤ o.open_interest)
    (hup : 0 ≤ underlying_price) :
    ∀ p ∈ calculateStrikeProfiles calls puts underlying_price,
      0 ≤ p.2.call_gamma ∧ 0 ≤ p.2.put_gamma := by
  have hbase : ∀ q ∈ (calls.foldl (addCallToProfiles underlying_price) []),
      0 ≤ q.2.call_gamma ∧ 0 ≤ q.2.put_gamma := by
    apply foldl_preserves (fun s : List (ℚ × StrikeGammaProfile) =>
      ∀ q ∈ s, 0 ≤ q.2.call_gamma ∧ 0 ≤ q.2.put_gamma)
    · intro q hq; cases hq
    · intro s a ha hs
      exact addCallToProfiles_nonneg
        (gammaExposure_nonneg (hc a ha).1 (hc a ha).2 hup) hs
  have hall : ∀ q ∈ (puts.foldl (addPutToProfiles underlying_price)
      (calls.foldl (addCallToProfiles underlying_price) [])),
      0 ≤ q.2.call_gamma ∧ 0 ≤ q.2.put_gamma := by
    apply foldl_preserves (fun s : List (ℚ × StrikeGammaProfile) =>
      ∀ q ∈ s, 0 ≤ q.2.call_gamma ∧ 0 ≤ q.2.put_gamma)
    · exact hbase
    · intro s a ha hs
      exact addPutToProfiles_nonneg
        (gammaExposure_nonneg (hp a ha).1 (hp a ha).2 hup) hs
  intro p hpmem
  unfold calculateStrikeProfiles at hpmem
  obtain ⟨p0, hp0, hcg, hpg⟩ := mem_finalizeProfiles hpmem
  rw [hcg, hpg]
  exact hall p0 hp0

/-- Every key of `calculateStrikeProfiles` is the strike of some input
option. -/
lemma calculateStrikeProfiles_keys_sub {calls puts : List OptionData}
    {underlying_price : ℚ} :
    ∀ K ∈ (calculateStrikeProfiles calls puts underlying_price).map Prod.fst,
      (∃ o ∈ calls, o.strike = K) ∨ (∃ o ∈ puts, o.strike = K) := by
  have hbase : ∀ K ∈ ((calls.foldl (addCallToProfiles underlying_price)
      []).map Prod.fst), ∃ o ∈ calls, o.strike = K := by
    apply foldl_preserves (fun s : List (ℚ × StrikeGammaProfile) =>
      ∀ K ∈ s.map Prod.fst, ∃ o ∈ calls, o.strike = K)
    · intro K hK; cases hK
    · intro s a ha hs K hK
      rw [addCallToProfiles, profModify_keys] at hK
      rcases profEnsure_keys s a.strike with he | he
      · exact hs K (he ▸ hK)
      · rw [he] at hK
        rcases List.mem_append.mp hK with h' | h'
        · exact hs K h'
        · exact ⟨a, ha, (List.mem_singleton.mp h').symm⟩
  have hall : ∀ K ∈ ((puts.foldl (addPutToProfiles underlying_price)
      (calls.foldl (addCallToProfiles underlying_price) [])).map Prod.fst),
      (∃ o ∈ calls, o.strike = K) ∨ (∃ o ∈ puts, o.strike = K) := by
    apply foldl_preserves (fun s : List (ℚ × StrikeGammaProfile) =>
      ∀ K ∈ s.map Prod.fst,
        (∃ o ∈ calls, o.strike = K) ∨ (∃ o ∈ puts, o.strike = K))
    · intro K hK
      exact Or.inl (hbase K hK)
    · intro s a ha hs K hK
      rw [addPutToProfiles, profModify_keys] at hK
      rcases profEnsure_keys s a.strike with he | he
      · exact hs K (he ▸ hK)
      · rw [he] at hK
        rcases List.mem_append.mp hK with h' | h'
        · exact hs K h'
        · exact Or.inr ⟨a, ha, (List.mem_singleton.mp h').symm⟩
  intro K hK
  rw [calculateStrikeProfiles, finalizeProfiles_keys] at hK
  exact hall K hK

/- ------------------------------------------------------------------ -/
/- sortedStrikes and findGammaFlip characterisation.                  -/
/- ------------------------------------------------------------------ -/

lemma sortedStrikes_sorted (ps : List (ℚ × StrikeGammaProfile)) :
    (sortedStrikes ps).Sorted (· ≤ ·) :=
  List.sorted_insertionSort (· ≤ ·) (ps.map Prod.fst)

lemma mem_sortedStrikes {ps : List (ℚ × StrikeGammaProfile)} {K : ℚ} :
    K ∈ sortedStrikes ps ↔ K ∈ ps.map Prod.fst :=
  List.mem_insertionSort (· ≤ ·)

lemma sortedStrikes_nodup {ps : List (ℚ × StrikeGammaProfile)}
    (hnd : (ps.map Prod.fst).Nodup) : (sortedStrikes ps).Nodup :=
  (List.Perm.nodup_iff (List.perm_insertionSort (· ≤ ·)
    (ps.map Prod.fst))).mpr hnd

lemma findGammaFlip_eq_some {ps : List (ℚ × StrikeGammaProfile)}
    {spot_price f : ℚ} (h : findGammaFlip ps spot_price = some f) :
    flipScan (netGammaAt ps) (sortedStrikes ps) = some f := by
  unfold findGammaFlip at h
  dsimp only at h
  split at h
  · cases h
  · exact h

/-- C10: the gamma-flip search fires only on a strictly opposite-signed
adjacent pair of net gammas in the ascending strike walk: when it returns a
value, that value is the linear interpolation for such a pair and lies
strictly between the two adjacent strikes; when no strictly opposite-signed
adjacent pair exists (in particular when a net gamma is exactly 0 and the
curve only touches zero), it returns null. -/
theorem findGammaFlip_strict_sign_change (ps : List (ℚ × StrikeGammaProfile))
    (spot_price : ℚ) (hnd : (ps.map Prod.fst).Nodup) :
    (∀ f, findGammaFlip ps spot_price = some f →
      ∃ K1 K2, (K1, K2) ∈ adjPairs (sortedStrikes ps) ∧
        ((netGammaAt ps K1 > 0 ∧ netGammaAt ps K2 < 0) ∨
         (netGammaAt ps K1 < 0 ∧ netGammaAt ps K2 > 0)) ∧
        f = K1 + (K2 - K1) * |netGammaAt ps K1| /
          (|netGammaAt ps K1| + |netGammaAt ps K2|) ∧
        K1 < f ∧ f < K2) ∧
    ((∀ p ∈ adjPairs (sortedStrikes ps), ¬ flipCond (netGammaAt ps) p) →
      findGammaFlip ps spot_price = none) := by
  constructor
  · intro f h
    obtain ⟨K1, K2, hmem, hcond, hf⟩ :=
      flipScan_eq_some (findGammaFlip_eq_some h)
    have hle : K1 ≤ K2 :=
      adjPairs_le_of_sorted (sortedStrikes_sorted ps) (K1, K2) hmem
    have hne : K1 ≠ K2 :=
      adjPairs_ne_of_nodup (sortedStrikes_nodup hnd) (K1, K2) hmem
    have hlt : K1 < K2 := lt_of_le_of_ne hle hne
    have h1 : netGammaAt ps K1 ≠ 0 := by
      rcases hcond with ⟨ha, _⟩ | ⟨ha, _⟩
      · exact ne_of_gt ha
      · exact ne_of_lt ha
    have h2 : netGammaAt ps K2 ≠ 0 := by
      rcases hcond with ⟨_, hb⟩ | ⟨_, hb⟩
      · exact ne_of_lt hb
      · exact ne_of_gt hb
    obtain ⟨-, -, hstrict⟩ := interp_bounds hle h1 h2
    obtain ⟨hl, hr⟩ := hstrict hlt
    exact ⟨K1, K2, hmem, hcond, hf, hf ▸ hl, hf ▸ hr⟩
  · intro h
    unfold findGammaFlip
    dsimp only
    split
    · rfl
    · exact flipScan_eq_none h

/-- A concrete profile list whose net-gamma curve touches zero at the middle
strike: nets are +200, 0, -100 at strikes 495, 500, 505. -/
def zeroTouchProfiles : List (ℚ × StrikeGammaProfile) :=
  [ (495, { StrikeGammaProfile.blank 495 with net_gamma := 200 }),
    (500, { StrikeGammaProfile.blank 500 with net_gamma := 0 }),
    (505, { StrikeGammaProfile.blank 505 with net_gamma := -100 }) ]

/-- C10 witness: at the zero-touching profile list, no adjacent pair is
strictly opposite-signed and the search returns null. -/
theorem findGammaFlip_strict_sign_change_witness :
    ((zeroTouchProfiles.map Prod.fst).Nodup ∧
      ∀ p ∈ adjPairs (sortedStrikes zeroTouchProfiles),
        ¬ flipCond (netGammaAt zeroTouchProfiles) p) ∧
    findGammaFlip zeroTouchProfiles 500 = none :=
  ⟨⟨by decide, by decide⟩,
    (findGammaFlip_strict_sign_change zeroTouchProfiles 500
      (by decide)).2 (by decide)⟩

/-- C9: for every GEX snapshot computed from a non-empty option data set
(whose rows have the query-guaranteed non-negative gamma and non-negative
open interest, at a non-negative spot):
`total_gamma_exposure = call_gamma + put_gamma ≥ 0`,
`net_gex = call_gamma - put_gamma`, `put_call_ratio ≥ 0` (and 0 when
`call_oi = 0`), and a non-null `gamma_flip_point` lies within
`[min_strike, max_strike]` of the strikes present in the data. -/
theorem gexSnapshot_invariants (symbol : String) (expiration : Int)
    (timestamp : Nat) (underlying_price : ℚ) (options_data : List OptionData)
    (hne : options_data ≠ [])
    (hdata : ∀ o ∈ options_data, 0 ≤ o.gamma ∧ 0 ≤ o.open_interest)
    (hspot : 0 ≤ underlying_price) :
    (calculateGexMetrics symbol expiration timestamp underlying_price
        options_data).total_gamma_exposure =
      (calculateGexMetrics symbol expiration timestamp underlying_price
        options_data).call_gamma +
      (calculateGexMetrics symbol expiration timestamp underlying_price
        options_data).put_gamma ∧
    0 ≤ (calculateGexMetrics symbol expiration timestamp underlying_price
        options_data).total_gamma_exposure ∧
    (calculateGexMetrics symbol expiration timestamp underlying_price
        options_data).net_gex =
      (calculateGexMetrics symbol expiration timestamp underlying_price
        options_data).call_gamma -
      (calculateGexMetrics symbol expiration timestamp underlying_price
        options_data).put_gamma ∧
    0 ≤ (calculateGexMetrics symbol expiration timestamp underlying_price
        options_data).put_call_ratio ∧
    ((calculateGexMetrics symbol expiration timestamp underlying_price
        options_data).call_oi = 0 →
      (calculateGexMetrics symbol expiration timestamp underlying_price
        options_data).put_call_ratio = 0) ∧
    (∀ f, (calculateGexMetrics symbol expiration timestamp underlying_price
        options_data).gamma_flip_point = some f →
      listMin (options_data.map OptionData.strike) ≤ f ∧
      f ≤ listMax (options_data.map OptionData.strike)) := by
  have hcall : ∀ o ∈ options_data.filter (fun o => o.option_type = "call"),
      0 ≤ o.gamma ∧ 0 ≤ o.open_interest :=
    fun o ho => hdata o (List.mem_of_mem_filter ho)
  have hput : ∀ o ∈ options_data.filter (fun o => o.option_type = "put"),
      0 ≤ o.gamma ∧ 0 ≤ o.open_interest :=
    fun o ho => hdata o (List.mem_of_mem_filter ho)
  have hprof := calculateStrikeProfiles_nonneg hcall hput hspot
  refine ⟨rfl, ?_, rfl, ?_, ?_, ?_⟩
  · show 0 ≤
      ((calculateStrikeProfiles
        (options_data.filter (fun o => o.option_type = "call"))
        (options_data.filter (fun o => o.option_type = "put"))
        underlying_price).map (fun p => p.2.call_gamma)).sum +
      ((calculateStrikeProfiles
        (options_data.filter (fun o => o.option_type = "call"))
        (options_data.filter (fun o => o.option_type = "put"))
        underlying_price).map (fun p => p.2.put_gamma)).sum
    have h1 : 0 ≤ ((calculateStrikeProfiles
        (options_data.filter (fun o => o.option_type = "call"))
        (options_data.filter (fun o => o.option_type = "put"))
        underlying_price).map (fun p => p.2.call_gamma)).sum := by
      apply List.sum_nonneg
      intro x hx
      obtain ⟨p, hp, hval⟩ := List.mem_map.mp hx
      exact hval ▸ (hprof p hp).1
    have h2 : 0 ≤ ((calculateStrikeProfiles
        (options_data.filter (fun o => o.option_type = "call"))
        (options_data.filter (fun o => o.option_type = "put"))
        underlying_price).map (fun p => p.2.put_gamma)).sum := by
      apply List.sum_nonneg
      intro x hx
      obtain ⟨p, hp, hval⟩ := List.mem_map.mp hx
      exact hval ▸ (hprof p hp).2
    linarith
  · show 0 ≤ (if ((options_data.filter
        (fun o => o.option_type = "call")).map
          OptionData.open_interest).sum > 0 then
      (((options_data.filter (fun o => o.option_type = "put")).map
          OptionData.open_interest).sum : ℚ) /
        (((options_data.filter (fun o => o.option_type = "call")).map
          OptionData.open_interest).sum : ℚ)
      else 0)
    split
    · rename_i hpos
      apply div_nonneg
      · have : 0 ≤ ((options_data.filter
            (fun o => o.option_type = "put")).map
              OptionData.open_interest).sum :=
          List.sum_nonneg (fun x hx => by
            obtain ⟨o, ho, hval⟩ := List.mem_map.mp hx
            exact hval ▸ (hput o ho).2)
        exact_mod_cast this
      · exact_mod_cast le_of_lt hpos
    · exact le_refl 0
  · intro h
    have h' : ((options_data.filter
        (fun o => o.option_type = "call")).map
          OptionData.open_interest).sum = 0 := h
    show (if ((options_data.filter
        (fun o => o.option_type = "call")).map
          OptionData.open_interest).sum > 0 then
      (((options_data.filter (fun o => o.option_type = "put")).map
          OptionData.open_interest).sum : ℚ) /
        (((options_data.filter (fun o => o.option_type = "call")).map
          OptionData.open_interest).sum : ℚ)
      else 0) = 0
    rw [if_neg (by rw [h']; exact lt_irrefl 0)]
  · intro f hf
    have hf' : findGammaFlip (calculateStrikeProfiles
        (options_data.filter (fun o => o.option_type = "call"))
        (options_data.filter (fun o => o.option_type = "put"))
        underlying_price) underlying_price = some f := hf
    obtain ⟨K1, K2, hmem, hcond, heq⟩ :=
      flipScan_eq_some (findGammaFlip_eq_some hf')
    have hle : K1 ≤ K2 :=
      adjPairs_le_of_sorted (sortedStrikes_sorted _) (K1, K2) hmem
    have h1 : netGammaAt (calculateStrikeProfiles
        (options_data.filter (fun o => o.option_type = "call"))
        (options_data.filter (fun o => o.option_type = "put"))
        underlying_price) K1 ≠ 0 := by
      rcases hcond with ⟨ha, _⟩ | ⟨ha, _⟩
      · exact ne_of_gt ha
      · exact ne_of_lt ha
    have h2 : netGammaAt (calculateStrikeProfiles
        (options_data.filter (fun o => o.option_type = "call"))
        (options_data.filter (fun o => o.option_type = "put"))
        underlying_price) K2 ≠ 0 := by
      rcases hcond with ⟨_, hb⟩ | ⟨_, hb⟩
      · exact ne_of_lt hb
      · exact ne_of_gt hb
    obtain ⟨hK1f, hfK2, -⟩ := interp_bounds hle h1 h2
    obtain ⟨hK1mem, hK2mem⟩ := adjPairs_mem_left hmem
    have hKmem : ∀ K, K ∈ sortedStrikes (calculateStrikeProfiles
        (options_data.filter (fun o => o.option_type = "call"))
        (options_data.filter (fun o => o.option_type = "put"))
        underlying_price) → K ∈ options_data.map OptionData.strike := by
      intro K hK
      rcases calculateStrikeProfiles_keys_sub K (mem_sortedStrikes.mp hK)
        with ⟨o, ho, hs⟩ | ⟨o, ho, hs⟩
      · exact List.mem_map.mpr ⟨o, List.mem_of_mem_filter ho, hs⟩
      · exact List.mem_map.mpr ⟨o, List.mem_of_mem_filter ho, hs⟩
    constructor
    · exact le_trans (listMin_le_of_mem (hKmem K1 hK1mem)) (heq ▸ hK1f)
    · exact le_trans (heq ▸ hfK2) (le_listMax_of_mem (hKmem K2 hK2mem))

/-- Concrete option rows used to instantiate the GEX snapshot invariants. -/
def sampleOptionsData : List OptionData :=
  [ { strike := 495, option_type := "call", gamma := 2, delta := 1,
      vega := 1, open_interest := 100, volume := 10,
      underlying_price := 500 },
    { strike := 505, option_type := "put", gamma := 1, delta := -1,
      vega := 1, open_interest := 50, volume := 5,
      underlying_price := 500 } ]

/-- C9 witness: the snapshot invariants at a concrete two-row data set. -/
theorem gexSnapshot_invariants_witness :
    (sampleOptionsData ≠ [] ∧
      (∀ o ∈ sampleOptionsData, 0 ≤ o.gamma ∧ 0 ≤ o.open_interest) ∧
      (0 : ℚ) ≤ 500) ∧
    ((calculateGexMetrics "SPY" 19758 0 500
        sampleOptionsData).total_gamma_exposure =
      (calculateGexMetrics "SPY" 19758 0 500 sampleOptionsData).call_gamma +
      (calculateGexMetrics "SPY" 19758 0 500 sampleOptionsData).put_gamma ∧
    0 ≤ (calculateGexMetrics "SPY" 19758 0 500
        sampleOptionsData).total_gamma_exposure ∧
    (calculateGexMetrics "SPY" 19758 0 500 sampleOptionsData).net_gex =
      (calculateGexMetrics "SPY" 19758 0 500 sampleOptionsData).call_gamma -
      (calculateGexMetrics "SPY" 19758 0 500 sampleOptionsData).put_gamma ∧
    0 ≤ (calculateGexMetrics "SPY" 19758 0 500
        sampleOptionsData).put_call_ratio ∧
    ((calculateGexMetrics "SPY" 19758 0 500 sampleOptionsData).call_oi = 0 →
      (calculateGexMetrics "SPY" 19758 0 500
        sampleOptionsData).put_call_ratio = 0) ∧
    (∀ f, (calculateGexMetrics "SPY" 19758 0 500
        sampleOptionsData).gamma_flip_point = some f →
      listMin (sampleOptionsData.map OptionData.strike) ≤ f ∧
      f ≤ listMax (sampleOptionsData.map OptionData.strike))) :=
  ⟨⟨by decide, by decide, by decide⟩,
    gexSnapshot_invariants "SPY" 19758 0 500 sampleOptionsData
      (by decide) (by decide) (by decide)⟩

/- ------------------------------------------------------------------ -/
/- Max pain: the two-strike scenario.                                 -/
/- ------------------------------------------------------------------ -/

/-- The option set of the two-strike max-pain scenario: strike 100 with
call_oi = 0 and put_oi = 10, strike 110 with call_oi = 10 and put_oi = 0. -/
def maxPainScenario : List OptionData :=
  [ { strike := 100, option_type := "call", gamma := 1, delta := 1,
      vega := 1, open_interest := 0, volume := 0, underlying_price := 105 },
    { strike := 100, option_type := "put", gamma := 1, delta := -1,
      vega := 1, open_interest := 10, volume := 0,
      underlying_price := 105 },
    { strike := 110, option_type := "call", gamma := 1, delta := 1,
      vega := 1, open_interest := 10, volume := 0,
      underlying_price := 105 },
    { strike := 110, option_type := "put", gamma := 1, delta := -1,
      vega := 1, open_interest := 0, volume := 0,
      underlying_price := 105 } ]

/-- C2 counterexample: on the two-strike scenario the max-pain computation
returns 100, not the claimed 110. -/
theorem maxPain_two_strikes_counterexample :
    calculateMaxPain maxPainScenario 105 = 100 ∧
    calculateMaxPain maxPainScenario 105 ≠ 110 := by
  have h : calculateMaxPain maxPainScenario 105 = 100 := by
    simp only [calculateMaxPain, maxPainScenario, maxPainLoop, painAt,
      List.foldl, List.insertionSort, List.orderedInsert, List.dedup,
      List.isEmpty, List.map]
    norm_num
    all_goals simp
  exact ⟨h, by rw [h]; norm_num⟩

/-- C2 amended: under the implemented pain formula both candidate strikes
have pain 0 (`pain(100) = pain(110) = 0`), and the strict-minimum search
keeps the first candidate in ascending strike order on ties, so the
computation returns `max_pain = 100`. -/
theorem maxPain_two_strikes_amended :
    painAt maxPainScenario 100 = 0 ∧
    painAt maxPainScenario 110 = 0 ∧
    calculateMaxPain maxPainScenario 105 = 100 := by
  refine ⟨?_, ?_, ?_⟩ <;>
    · simp only [calculateMaxPain, maxPainScenario, maxPainLoop, painAt,
        List.foldl, List.insertionSort, List.orderedInsert, List.dedup,
        List.isEmpty, List.map]
      norm_num
      all_goals simp

/- ------------------------------------------------------------------ -/
/- Greeks calculator (greeks_calculator.py).                          -/
/- ------------------------------------------------------------------ -/

/-- Python `str.lower()`, modelled over the character list (Lean's
`String.toLower` is extensionally the same but does not reduce in the
kernel). -/
def lowerString (s : String) : String := String.mk (s.data.map Char.toLower)

structure GreeksResult where
  delta : ℚ
  gamma : ℚ
  theta : ℚ
  vega : ℚ
  rho : ℚ
deriving Repr, DecidableEq

/-- Embeds `GreeksCalculator._expired_greeks` (greeks_calculator.py:119): delta 1
when in the money (spot above strike for a call, below for a put) else 0,
all other Greeks 0.  Note the returned delta is `1.0` for either option
type: there is no sign flip for puts. -/
def expiredGreeks (underlying_price strike : ℚ) (option_type : String) :
    GreeksResult :=
  let is_itm := if lowerString option_type = "call" then
                  underlying_price > strike
                else underlying_price < strike
  { delta := if is_itm then 1 else 0, gamma := 0, theta := 0, vega := 0,
    rho := 0 }

/-- Embeds `GreeksCalculator._time_to_expiration` (greeks_calculator.py:92): years
between the expiry instant (16:00 ET on the expiration day) and now,
clamped at 0; instants here are in seconds. -/
def timeToExpiration (expiry_at current_time : ℚ) : ℚ :=
  max ((expiry_at - current_time) / (365.25 * 24 * 3600)) 0

/-- The dispatch of `GreeksCalculator.calculate_greeks`
(greeks_calculator.py:44): `T ≤ 0` takes the expired-greeks branch;
otherwise the Black-Scholes branch, abstracted as a function parameter since
it uses transcendental functions. -/
def calculateGreeksAt
    (bsBranch : ℚ → ℚ → ℚ → ℚ → String → GreeksResult)
    (T underlying_price strike implied_vol : ℚ) (option_type : String) :
    GreeksResult :=
  if T ≤ 0 then expiredGreeks underlying_price strike option_type
  else bsBranch T underlying_price strike implied_vol option_type

/-- C3: at expiry the code returns delta = +1 for an in-the-money put
(spot 90 below strike 100) — not the sign-flipped  -1 — while the other
Greeks are 0. -/
theorem expired_itm_put_delta :
    (expiredGreeks 90 100 "put").delta = 1 ∧
    (expiredGreeks 90 100 "put").delta ≠ -1 ∧
    (expiredGreeks 90 100 "put").gamma = 0 ∧
    (expiredGreeks 90 100 "put").theta = 0 ∧
    (expiredGreeks 90 100 "put").vega = 0 ∧
    (expiredGreeks 90 100 "put").rho = 0 ∧
    (∀ bsBranch implied_vol,
      (calculateGreeksAt bsBranch 0 90 100 implied_vol "put").delta = 1) := by
  refine ⟨by decide, by decide, rfl, rfl, rfl, rfl, ?_⟩
  intro bsBranch implied_vol
  unfold calculateGreeksAt
  rw [if_pos (le_refl 0)]
  decide

/- ------------------------------------------------------------------ -/
/- Target-expiration resolution (C4).                                 -/
/- ------------------------------------------------------------------ -/

/-- The expiration resolution in `StreamingIngestionEngine.run`
(streaming_ingestion_engine.py:566): the literal "today" becomes
`date.today()` (the day parameter here); anything else is parsed as
YYYY-MM-DD (the parse abstracted as a function parameter), raising on
failure. -/
def engineResolveExpiration (parseDate : String → Option Int) (today : Int)
    (target_expiration : String) : Except String Int :=
  if target_expiration = "today" then Except.ok today
  else
    match parseDate target_expiration with
    | some d => Except.ok d
    | none => Except.error "invalid date format"

/-- Embeds `GEXScheduler.get_expiration_date` (gex_scheduler.py:134): "today"
becomes `date.today()`; a malformed date string falls back to
`date.today()` as well. -/
def schedulerGetExpirationDate (parseDate : String → Option Int)
    (today : Int) (target_expiration : String) : Int :=
  if target_expiration = "today" then today
  else
    match parseDate target_expiration with
    | some d => d
    | none => today

/-- Python `date.weekday()` for a day index counted from 1970-01-01 (a
Thursday): Monday = 0. -/
def pyWeekday (d : Int) : Int := (d + 3) % 7

/-- Following the spec's words: the next weekday strictly after day `d`
(at most two weekend days can intervene). -/
def specNextWeekday (d : Int) : Int :=
  if pyWeekday (d + 1) < 5 then d + 1
  else if pyWeekday (d + 2) < 5 then d + 2
  else d + 3

/-- Following the spec's words: "today" means the current ET date if the
current ET time is before 16:00 (960 minutes into the day), otherwise the
next weekday. -/
def specResolveToday (etDay : Int) (etMinutesOfDay : Nat) : Int :=
  if etMinutesOfDay < 960 then etDay else specNextWeekday etDay

/-- C4 counterexample: on a Friday (day 8 = 1970-01-09) at 20:00 ET the
spec rule resolves "today" to the following Monday (day 11), but both the
engine and the scheduler resolve it to the current date (day 8). -/
theorem today_resolution_counterexample :
    engineResolveExpiration (fun _ => none) 8 "today" = Except.ok 8 ∧
    schedulerGetExpirationDate (fun _ => none) 8 "today" = 8 ∧
    pyWeekday 8 = 4 ∧
    specResolveToday 8 1200 = 11 ∧
    (8 : Int) ≠ 11 := by
  refine ⟨rfl, rfl, by decide, by decide, by decide⟩

/-- C4 amended: both the engine and the scheduler resolve a configured
"today" to the process's current date unconditionally — no 16:00-ET cutoff
and no next-weekday adjustment. -/
theorem today_resolution_amended (parseDate : String → Option Int)
    (today : Int) :
    engineResolveExpiration parseDate today "today" = Except.ok today ∧
    schedulerGetExpirationDate parseDate today "today" = today :=
  ⟨rfl, rfl⟩

/- ------------------------------------------------------------------ -/
/- Spot selection for the GEX snapshot (C5).                          -/
/- ------------------------------------------------------------------ -/

/-- Following the spec's words: "Determine spot: override if provided; else
latest underlying close." -/
def specSpotForSnapshot (override : Option ℚ)
    (latestUnderlyingClose : ℚ) : ℚ :=
  override.getD latestUnderlyingClose

/-- A stored option row whose `underlying_price` snapshot (500) differs
from the latest underlying close (510). -/
def staleSpotRow : OptionData :=
  { strike := 500, option_type := "call", gamma := 1, delta := 1, vega := 1,
    open_interest := 10, volume := 1, underlying_price := 500 }

/-- C5 counterexample: with no override, the code takes the spot from the
first fetched option row (500), not from the underlying-quotes store
(latest close 510) as the spec prescribes. -/
theorem spot_fallback_counterexample :
    calcCurrentGexSpot [staleSpotRow] none = 500 ∧
    specSpotForSnapshot none 510 = 510 ∧
    calcCurrentGexSpot [staleSpotRow] none ≠ specSpotForSnapshot none 510 :=
  ⟨rfl, rfl, by decide⟩

/-- C5 amended: when a price override is provided the snapshot uses it;
otherwise the snapshot's spot is the `underlying_price` stored on the first
fetched option row (not the underlying-quotes store). -/
theorem spot_selection_amended (symbol : String) (expiration : Int)
    (timestamp : Nat) (options_data : List OptionData) (p : ℚ)
    (o : OptionData) (rest : List OptionData)
    (hdata : options_data = o :: rest) :
    calcCurrentGexSpot options_data (some p) = p ∧
    calcCurrentGexSpot options_data none = o.underlying_price ∧
    (calculateCurrentGex symbol expiration timestamp (some p)
        options_data).map GEXMetrics.underlying_price = some p ∧
    (calculateCurrentGex symbol expiration timestamp none
        options_data).map GEXMetrics.underlying_price =
      some o.underlying_price := by
  subst hdata
  exact ⟨rfl, rfl, rfl, rfl⟩

/-- C5 witness: the amended spot-selection at a concrete one-row data set
with override 510. -/
theorem spot_selection_amended_witness :
    ([staleSpotRow] = staleSpotRow :: ([] : List OptionData)) ∧
    (calcCurrentGexSpot [staleSpotRow] (some 510) = 510 ∧
    calcCurrentGexSpot [staleSpotRow] none = staleSpotRow.underlying_price ∧
    (calculateCurrentGex "SPY" 19758 0 (some 510)
        [staleSpotRow]).map GEXMetrics.underlying_price = some 510 ∧
    (calculateCurrentGex "SPY" 19758 0 none
        [staleSpotRow]).map GEXMetrics.underlying_price =
      some staleSpotRow.underlying_price) :=
  ⟨rfl, spot_selection_amended "SPY" 19758 0 [staleSpotRow] 510
    staleSpotRow [] rfl⟩

/- ------------------------------------------------------------------ -/
/- Streaming ingestion engine (streaming_ingestion_engine.py).        -/
/- ------------------------------------------------------------------ -/

structure EngineStats where
  options_received : Nat
  options_stored : Nat
  errors : Nat
  heartbeats : Int
  last_heartbeat : Option Nat
deriving Repr, DecidableEq

/-- The engine's mutable state: counters, per-symbol activity timestamps,
the batch buffer and its size threshold, the spot-price cache, and the
`options_quotes` table contents (committed rows). -/
structure EngineState where
  stats : EngineStats
  last_activity : List (String × Nat)
  batch_size : Nat
  batch_buffer : List ParsedOption
  underlying_prices : List (String × ℚ)
  db_rows : List ParsedOption
deriving Repr, DecidableEq

/-- Dict write `d[k] = v` for a string-keyed dict as an association list. -/
def dictSet {α : Type} (l : List (String × α)) (k : String) (v : α) :
    List (String × α) :=
  if (l.find? (fun p => decide (p.1 = k))).isSome then
    l.map (fun p => if p.1 = k then (k, v) else p)
  else l ++ [(k, v)]

/-- Dict read `d.get(k, dflt)`. -/
def dictGetD {α : Type} (l : List (String × α)) (k : String) (dflt : α) :
    α :=
  ((l.find? (fun p => decide (p.1 = k))).map Prod.snd).getD dflt

/-- One leg of a streamed options-chain frame. -/
structure StreamLeg where
  Symbol : String
  StrikePrice : ℚ
  OptionType : String
deriving Repr, DecidableEq

/-- A streamed frame: either a heartbeat (`Heartbeat` present, with its
`Timestamp` already parsed to microseconds) or a quote with one leg. -/
structure StreamMsg where
  Heartbeat : Option Int
  Timestamp : Nat
  Legs : List StreamLeg
  Bid : ℚ
  Ask : ℚ
  Mid : ℚ
  Last : ℚ
  Volume : Int
  DailyOpenInterest : Int
  ImpliedVolatility : ℚ
  Delta : ℚ
  Gamma : ℚ
  Theta : ℚ
  Vega : ℚ
  Rho : ℚ
deriving Repr, DecidableEq

/-- Embeds `StreamingIngestionEngine._parse_option_update`
(streaming_ingestion_engine.py:209).  The Black-Scholes Greeks computation
is abstracted as `greeksFn` (spot, strike, expiration day, option type,
implied vol), invoked exactly when `underlying_price > 0 ∧ implied_vol > 0`
as in the source; otherwise the vendor-supplied Greeks are used. -/
def parseOptionUpdate
    (greeksFn : ℚ → ℚ → Int → String → ℚ → GreeksResult)
    (now : Nat) (today : Int) (underlying_prices : List (String × ℚ))
    (data : StreamMsg) (symbol : String) (expiration : Int) :
    Option ParsedOption :=
  match data.Legs with
  | [] => none
  | leg :: _ =>
    if leg.Symbol = "" then none
    else
      let strike := leg.StrikePrice
      let option_type := lowerString leg.OptionType
      let underlying_price := dictGetD underlying_prices symbol 0
      let dte := expiration - today
      let spread_pct : Option ℚ :=
        if data.Bid > 0 ∧ data.Ask > 0 then
          some (if data.Mid > 0 then (data.Ask - data.Bid) / data.Mid else 0)
        else none
      let greeks :=
        if underlying_price > 0 ∧ data.ImpliedVolatility > 0 then
          (greeksFn underlying_price strike expiration option_type
            data.ImpliedVolatility, true)
        else
          ({ delta := data.Delta, gamma := data.Gamma, theta := data.Theta,
             vega := data.Vega, rho := data.Rho }, false)
      some { timestamp := now, symbol := leg.Symbol, underlying := symbol,
             underlying_price := underlying_price, strike := strike,
             expiration := expiration, dte := dte,
             option_type := option_type, bid := data.Bid, ask := data.Ask,
             mid := data.Mid, last := data.Last, volume := data.Volume,
             open_interest := data.DailyOpenInterest,
             implied_vol := data.ImpliedVolatility,
             source := "tradestation_stream", spread_pct := spread_pct,
             delta := greeks.1.delta, gamma := greeks.1.gamma,
             theta := greeks.1.theta, vega := greeks.1.vega,
             rho := greeks.1.rho, is_calculated := greeks.2 }

/-- Embeds `StreamingIngestionEngine._store_options_batch`
(streaming_ingestion_engine.py:325): one bulk write in one transaction.
`dbOk = false` models a database error: the transaction is rolled back (the
table keeps its previous rows) and the exception is re-raised.  The ON
CONFLICT upsert key resolution is immaterial to the claims and the write is
modelled as an append of the batch. -/
def storeOptionsBatch (dbOk : Bool) (db_rows batch : List ParsedOption) :
    Except Unit (List ParsedOption) :=
  if dbOk then Except.ok (db_rows ++ batch) else Except.error ()

/-- Embeds `StreamingIngestionEngine._flush_batch`
(streaming_ingestion_engine.py:297): empty buffer is a no-op; on success
the stored counter grows and the buffer is cleared; on a store error the
error counter is incremented and the exception propagates — the buffer is
NOT cleared. -/
def flushBatch (dbOk : Bool) (s : EngineState) :
    Except EngineState EngineState :=
  if s.batch_buffer = [] then Except.ok s
  else
    match storeOptionsBatch dbOk s.db_rows s.batch_buffer with
    | Except.ok db =>
      Except.ok { s with
        db_rows := db,
        stats := { s.stats with options_stored :=
          s.stats.options_stored + s.batch_buffer.length },
        batch_buffer := [] }
    | Except.error _ =>
      Except.error { s with
        stats := { s.stats with errors := s.stats.errors + 1 } }

/-- Embeds `StreamingIngestionEngine.option_update_handler`
(streaming_ingestion_engine.py:160): count the message, update the
per-symbol activity time, record heartbeats, else parse the quote, append
it to the batch buffer and flush when full.  Exceptions from the flush are
caught by the handler's try/except, which increments the error counter and
returns normally. -/
def optionUpdateHandler
    (greeksFn : ℚ → ℚ → Int → String → ℚ → GreeksResult)
    (dbOk : Bool) (now : Nat) (today : Int) (data : StreamMsg)
    (symbol : String) (expiration : Int) (s : EngineState) : EngineState :=
  let s := { s with stats := { s.stats with
    options_received := s.stats.options_received + 1 } }
  let s := { s with last_activity := dictSet s.last_activity symbol now }
  match data.Heartbeat with
  | some n =>
    { s with stats :=
      { s.stats with
        heartbeats := n
        last_heartbeat := some data.Timestamp } }
  | none =>
    match parseOptionUpdate greeksFn now today s.underlying_prices data
        symbol expiration with
    | none => s
    | some option =>
      let s := { s with batch_buffer := s.batch_buffer ++ [option] }
      if s.batch_size ≤ s.batch_buffer.length then
        match flushBatch dbOk s with
        | Except.ok s2 => s2
        | Except.error s2 =>
          { s2 with stats := { s2.stats with errors := s2.stats.errors + 1 } }
      else s

/-- The flow-aggregator state as affected by
`StreamingIngestionEngine.option_update_handler`: the handler body
(streaming_ingestion_engine.py:160-207) contains no call into
`OptionFlowAggregator` — the engine holds no aggregator at all — so any
aggregator state is left untouched by message handling. -/
def engineAggregatorAfterHandler (aggregator : List (AggKey × FlowBucket))
    (_data : StreamMsg) : List (AggKey × FlowBucket) :=
  aggregator

/-- Following the spec's words ("Also forward every parsed quote to the
Flow Aggregator"): the aggregator state the spec expects after one handled
message whose parse produced the given quote. -/
def specAggregatorAfterHandler (aggregator : List (AggKey × FlowBucket))
    (parsed : Option ParsedOption) : List (AggKey × FlowBucket) :=
  match parsed with
  | some q => aggAddQuote aggregator q
  | none => aggregator

lemma aggAddQuote_nil_ne (q : ParsedOption) : aggAddQuote [] q ≠ [] := by
  simp [aggAddQuote, aggLookup]

/-- A concrete parsable stream frame (vendor Greeks, no cached spot). -/
def sampleStreamMsg : StreamMsg :=
  { Heartbeat := none, Timestamp := 0,
    Legs := [{ Symbol := "SPY 240205C500", StrikePrice := 500,
               OptionType := "Call" }],
    Bid := 1, Ask := 2, Mid := 0, Last := 2, Volume := 5,
    DailyOpenInterest := 10, ImpliedVolatility := 0, Delta := 1,
    Gamma := 1, Theta := 0, Vega := 0, Rho := 0 }

/-- A Greeks function whose value never matters for the sample message
(its implied volatility is 0, so the vendor branch is taken). -/
def zeroGreeksFn : ℚ → ℚ → Int → String → ℚ → GreeksResult :=
  fun _ _ _ _ _ => { delta := 0, gamma := 0, theta := 0, vega := 0, rho := 0 }

/-- A freshly initialised engine state (batch size 100). -/
def engineState0 : EngineState :=
  { stats := { options_received := 0, options_stored := 0, errors := 0,
               heartbeats := 0, last_heartbeat := none },
    last_activity := [], batch_size := 100, batch_buffer := [],
    underlying_prices := [], db_rows := [] }

/-- The quote `_parse_option_update` produces from `sampleStreamMsg`. -/
def sampleParsed : ParsedOption :=
  { timestamp := 1707143251000000, symbol := "SPY 240205C500",
    underlying := "SPY", underlying_price := 0, strike := 500,
    expiration := 19758, dte := 0, option_type := "call", bid := 1,
    ask := 2, mid := 0, last := 2, volume := 5, open_interest := 10,
    implied_vol := 0, source := "tradestation_stream",
    spread_pct := some 0, delta := 1, gamma := 1, theta := 0,
    vega := 0, rho := 0, is_calculated := false }

/-- C1: the per-message handler parses the sample quote and appends it to
the batch buffer, but performs no `add_quote` on the flow aggregator: any
aggregator state is left unchanged by the handler, whereas the forwarding
the spec mandates would have created a bucket (a non-empty map from the
fresh one). -/
theorem handler_does_not_forward_to_aggregator :
    parseOptionUpdate zeroGreeksFn 1707143251000000 19758 []
      sampleStreamMsg "SPY" 19758 = some sampleParsed ∧
    (optionUpdateHandler zeroGreeksFn true 1707143251000000 19758
      sampleStreamMsg "SPY" 19758 engineState0).batch_buffer =
      [sampleParsed] ∧
    (∀ (aggregator : List (AggKey × FlowBucket)) (data : StreamMsg),
      engineAggregatorAfterHandler aggregator data = aggregator) ∧
    specAggregatorAfterHandler [] (some sampleParsed) ≠
      engineAggregatorAfterHandler [] sampleStreamMsg := by
  refine ⟨by decide, by decide, fun _ _ => rfl, ?_⟩
  show aggAddQuote [] sampleParsed ≠ []
  exact aggAddQuote_nil_ne sampleParsed

/-- C6 amended: on a database error while flushing a full batch, the
transaction is rolled back (the stored rows are unchanged), the error
counter is incremented (twice: in `_flush_batch` and in the handler's
catch), the handler returns normally so the stream pipeline keeps running —
but the batch buffer is left intact, so the failed batch is retried on the
next flush rather than discarded. -/
theorem store_error_keeps_buffer
    (greeksFn : ℚ → ℚ → Int → String → ℚ → GreeksResult)
    (now : Nat) (today : Int) (data : StreamMsg) (symbol : String)
    (expiration : Int) (s : EngineState) (opt : ParsedOption)
    (hhb : data.Heartbeat = none)
    (hparse : parseOptionUpdate greeksFn now today s.underlying_prices data
      symbol expiration = some opt)
    (hfull : s.batch_size ≤ (s.batch_buffer ++ [opt]).length) :
    (optionUpdateHandler greeksFn false now today data symbol expiration
      s).db_rows = s.db_rows ∧
    (optionUpdateHandler greeksFn false now today data symbol expiration
      s).batch_buffer = s.batch_buffer ++ [opt] ∧
    (optionUpdateHandler greeksFn false now today data symbol expiration
      s).stats.errors = s.stats.errors + 2 := by
  unfold optionUpdateHandler
  rw [hhb]
  dsimp only
  rw [hparse]
  dsimp only
  rw [if_pos hfull]
  unfold flushBatch storeOptionsBatch
  rw [if_neg (by simp)]
  dsimp only
  exact ⟨rfl, rfl, rfl⟩

/-- A fresh engine state with batch size 1, so the sample quote triggers an
immediate flush. -/
def engineState1 : EngineState :=
  { engineState0 with batch_size := 1 }

/-- C6 witness: the amended store-error behaviour at the sample message and
a batch size of 1 with a failing database. -/
theorem store_error_keeps_buffer_witness :
    (sampleStreamMsg.Heartbeat = none ∧
      parseOptionUpdate zeroGreeksFn 1707143251000000 19758
        engineState1.underlying_prices sampleStreamMsg "SPY" 19758 =
        some sampleParsed ∧
      engineState1.batch_size ≤
        (engineState1.batch_buffer ++ [sampleParsed]).length) ∧
    ((optionUpdateHandler zeroGreeksFn false 1707143251000000 19758
      sampleStreamMsg "SPY" 19758 engineState1).db_rows =
      engineState1.db_rows ∧
    (optionUpdateHandler zeroGreeksFn false 1707143251000000 19758
      sampleStreamMsg "SPY" 19758 engineState1).batch_buffer =
      engineState1.batch_buffer ++ [sampleParsed] ∧
    (optionUpdateHandler zeroGreeksFn false 1707143251000000 19758
      sampleStreamMsg "SPY" 19758 engineState1).stats.errors =
      engineState1.stats.errors + 2) :=
  ⟨⟨rfl, by decide, by decide⟩,
    store_error_keeps_buffer zeroGreeksFn 1707143251000000 19758
      sampleStreamMsg "SPY" 19758 engineState1 sampleParsed rfl (by decide)
      (by decide)⟩

/-- C6 counterexample: after the failed flush the buffer still holds the
parsed quote — it is not discarded (not the empty buffer the claim
states). -/
theorem store_error_buffer_not_discarded :
    (optionUpdateHandler zeroGreeksFn false 1707143251000000 19758
      sampleStreamMsg "SPY" 19758 engineState1).batch_buffer =
      [sampleParsed] ∧
    [sampleParsed] ≠ ([] : List ParsedOption) := by
  refine ⟨by decide, by decide⟩
